import Mathlib

set_option maxRecDepth 100000

/-!
Verification of the MnemonicNexus event-sourcing core against its
natural-language specification.

The definitions below are a shallow embedding, in Lean, of the Python
source of the repository: the Gateway's append / validation / idempotency
path (`services/gateway`), the projector SDK's watermark and state-hash
machinery (`projectors/sdk/projector.py`), the relational projector's EMO
handlers (`projectors/relational/projector.py`), the CDC publisher's
delivery accounting (`services/publisher/main.py`) and the memory-to-EMO
translator (`projectors/translator_memory_to_emo`).

Machine integers are modelled as `Nat` with explicit reduction modulo
2 to the 32 where the hash algorithms require 32-bit wraparound.  JSON
values are modelled by a mutual inductive mirroring Python dict / list /
scalar values, and Python's `json.dumps` with `sort_keys=True` is embedded
as a canonical serializer.  `hashlib.sha256`, `hashlib.sha1` and
`uuid.uuid5` from the Python standard library are embedded in full so that
the hash-related claims are about the real byte strings the code produces.
-/

namespace MNX

/-! ## 32-bit word arithmetic -/

/-- Wrap a natural number to a 32-bit machine word, as Python's hash
implementations do implicitly via C uint32 arithmetic. -/
def w32 (n : Nat) : Nat := n % 4294967296

/-- 32-bit addition with wraparound. -/
def wadd (a b : Nat) : Nat := w32 (a + b)

/-- Right rotation of a 32-bit word. -/
def rotr (x n : Nat) : Nat := w32 ((x >>> n) ||| (x <<< (32 - n)))

/-- Left rotation of a 32-bit word. -/
def rotl (x n : Nat) : Nat := w32 ((x <<< n) ||| (x >>> (32 - n)))

/-- Bitwise complement of a 32-bit word. -/
def wnot (x : Nat) : Nat := 4294967295 - w32 x

/-! ## Bytes -/

/-- A byte sequence is a list of naturals below 256. -/
abbrev Bytes := List Nat

/-- Split a byte list into 64-byte blocks (structural recursion so that
concrete hashes kernel-reduce). -/
def blocks64Go : Bytes → Bytes → List Bytes
  | [], acc => if acc.isEmpty then [] else [acc.reverse]
  | b :: rest, acc =>
      if acc.length == 63 then (b :: acc).reverse :: blocks64Go rest []
      else blocks64Go rest (b :: acc)

/-- Split a byte list into 64-byte blocks. -/
def blocks64 (l : Bytes) : List Bytes := blocks64Go l []

/-- Big-endian 32-bit words from bytes. -/
def wordsBE : Bytes → List Nat
  | a :: b :: c :: d :: rest =>
      (a * 16777216 + b * 65536 + c * 256 + d) :: wordsBE rest
  | _ => []

/-- Big-endian byte expansion of a 32-bit word. -/
def wordBytesBE (x : Nat) : Bytes :=
  [x / 16777216 % 256, x / 65536 % 256, x / 256 % 256, x % 256]

/-- Big-endian 8-byte expansion of a length-in-bits counter, as used by the
Merkle–Damgard padding of SHA-1 and SHA-256. -/
def len8BytesBE (n : Nat) : Bytes :=
  [n >>> 56 % 256, n >>> 48 % 256, n >>> 40 % 256, n >>> 32 % 256,
   n >>> 24 % 256, n >>> 16 % 256, n >>> 8 % 256, n % 256]

/-- Merkle–Damgard padding shared by SHA-1 and SHA-256: append 0x80, zero
bytes to 56 mod 64, then the bit length as 8 big-endian bytes. -/
def mdPad (msg : Bytes) : Bytes :=
  let l := msg.length
  let zeros := (119 - l % 64) % 64
  msg ++ [128] ++ List.replicate zeros 0 ++ len8BytesBE (8 * l)

/-- Lower-case hex digit. -/
def hexDigit (n : Nat) : Char :=
  if n < 10 then Char.ofNat (48 + n) else Char.ofNat (87 + n)

/-- Lower-case hex rendering of a byte list, as `hashlib`'s `hexdigest`. -/
def bytesToHex (bs : Bytes) : String :=
  String.mk (bs.flatMap fun b => [hexDigit (b / 16 % 16), hexDigit (b % 16)])

/-! ## SHA-256 (`hashlib.sha256`) -/

/-- SHA-256 round constants. -/
def sha256K : List Nat :=
  [1116352408, 1899447441, 3049323471, 3921009573, 961987163,
   1508970993, 2453635748, 2870763221, 3624381080, 310598401,
   607225278, 1426881987, 1925078388, 2162078206, 2614888103,
   3248222580, 3835390401, 4022224774, 264347078, 604807628,
   770255983, 1249150122, 1555081692, 1996064986, 2554220882,
   2821834349, 2952996808, 3210313671, 3336571891, 3584528711,
   113926993, 338241895, 666307205, 773529912, 1294757372,
   1396182291, 1695183700, 1986661051, 2177026350, 2456956037,
   2730485921, 2820302411, 3259730800, 3345764771, 3516065817,
   3600352804, 4094571909, 275423344, 430227734, 506948616,
   659060556, 883997877, 958139571, 1322822218, 1537002063,
   1747873779, 1955562222, 2024104815, 2227730452, 2361852424,
   2428436474, 2756734187, 3204031479, 3329325298]

/-- One extension step of the SHA-256 message schedule, appending word
`W[n]` from `W[n-16]`, `W[n-15]`, `W[n-7]` and `W[n-2]`. -/
def sha256Extend1 (w : List Nat) : List Nat :=
  let n := w.length
  let x15 := w.getD (n - 15) 0
  let x2 := w.getD (n - 2) 0
  let s0 := (rotr x15 7) ^^^ (rotr x15 18) ^^^ (x15 >>> 3)
  let s1 := (rotr x2 17) ^^^ (rotr x2 19) ^^^ (x2 >>> 10)
  w ++ [wadd (wadd (w.getD (n - 16) 0) s0) (wadd (w.getD (n - 7) 0) s1)]

/-- Iterate the schedule extension a given number of times. -/
def sha256ExtendN : Nat → List Nat → List Nat
  | 0, w => w
  | n + 1, w => sha256ExtendN n (sha256Extend1 w)

/-- One SHA-256 compression round over state `[a,b,c,d,e,f,g,h]`. -/
def sha256Round (st : List Nat) (kw : Nat × Nat) : List Nat :=
  match st with
  | [a, b, c, d, e, f, g, h] =>
      let s1 := (rotr e 6) ^^^ (rotr e 11) ^^^ (rotr e 25)
      let ch := (e &&& f) ^^^ ((wnot e) &&& g)
      let t1 := wadd (wadd (wadd h s1) (wadd ch kw.1)) kw.2
      let s0 := (rotr a 2) ^^^ (rotr a 13) ^^^ (rotr a 22)
      let mj := (a &&& b) ^^^ (a &&& c) ^^^ (b &&& c)
      let t2 := wadd s0 mj
      [wadd t1 t2, a, b, c, wadd d t1, e, f, g]
  | other => other

/-- Process one 64-byte block against the running SHA-256 state. -/
def sha256Block (h : List Nat) (block : Bytes) : List Nat :=
  let w := sha256ExtendN 48 (wordsBE block)
  let st := List.foldl sha256Round h (List.zip sha256K w)
  List.zipWith wadd h st

/-- SHA-256 initial state. -/
def sha256H0 : List Nat :=
  [1779033703, 3144134277, 1013904242, 2773480762,
   1359893119, 2600822924, 528734635, 1541459225]

/-- SHA-256 digest of a byte string, as 32 bytes. -/
def sha256 (msg : Bytes) : Bytes :=
  (List.foldl sha256Block sha256H0 (blocks64 (mdPad msg))).flatMap wordBytesBE

/-- SHA-256 hex digest, as `hashlib.sha256(...).hexdigest()`. -/
def sha256Hex (msg : Bytes) : String := bytesToHex (sha256 msg)

/-! ## SHA-1 (`hashlib.sha1`, used by `uuid.uuid5`) -/

/-- One extension step of the SHA-1 message schedule. -/
def sha1Extend1 (w : List Nat) : List Nat :=
  let n := w.length
  w ++ [rotl ((w.getD (n - 3) 0) ^^^ (w.getD (n - 8) 0) ^^^
              (w.getD (n - 14) 0) ^^^ (w.getD (n - 16) 0)) 1]

/-- Iterate the SHA-1 schedule extension. -/
def sha1ExtendN : Nat → List Nat → List Nat
  | 0, w => w
  | n + 1, w => sha1ExtendN n (sha1Extend1 w)

/-- SHA-1 round function and constant for round index `i`. -/
def sha1FK (i b c d : Nat) : Nat × Nat :=
  if i < 20 then ((b &&& c) ||| ((wnot b) &&& d), 1518500249)
  else if i < 40 then (b ^^^ c ^^^ d, 1859775393)
  else if i < 60 then ((b &&& c) ||| (b &&& d) ||| (c &&& d), 2400959708)
  else (b ^^^ c ^^^ d, 3395469782)

/-- One SHA-1 compression round over state `[a,b,c,d,e]` with indexed
schedule word. -/
def sha1Round (st : List Nat) (iw : Nat × Nat) : List Nat :=
  match st with
  | [a, b, c, d, e] =>
      let fk := sha1FK iw.1 b c d
      let t := wadd (wadd (wadd (rotl a 5) fk.1) (wadd e fk.2)) iw.2
      [t, a, rotl b 30, c, d]
  | other => other

/-- Process one 64-byte block against the running SHA-1 state. -/
def sha1Block (h : List Nat) (block : Bytes) : List Nat :=
  let w := sha1ExtendN 64 (wordsBE block)
  let st := List.foldl sha1Round h ((List.range 80).zip w)
  List.zipWith wadd h st

/-- SHA-1 initial state. -/
def sha1H0 : List Nat :=
  [1732584193, 4023233417, 2562383102, 271733878, 3285377520]

/-- SHA-1 digest of a byte string, as 20 bytes. -/
def sha1 (msg : Bytes) : Bytes :=
  (List.foldl sha1Block sha1H0 (blocks64 (mdPad msg))).flatMap wordBytesBE

/-! ## JSON values

Python dict / list / scalar values as passed to `json.dumps`.  Objects and
arrays are their own inductives so that all serializers are structural
recursions that kernel-reduce on concrete inputs.  Numbers are modelled as
integers: no claim of this development involves floats, and every payload
the source constructs for the claims at hand carries only ints and
strings. -/

mutual

inductive Json where
  | null : Json
  | bool (b : Bool) : Json
  | int (n : Int) : Json
  | str (s : String) : Json
  | arr (elts : JsonArr) : Json
  | obj (fields : JsonObj) : Json

inductive JsonArr where
  | nil : JsonArr
  | cons (hd : Json) (tl : JsonArr) : JsonArr

inductive JsonObj where
  | nil : JsonObj
  | cons (key : String) (val : Json) (tl : JsonObj) : JsonObj

end

/-- Build a JSON array from a list. -/
def jarr : List Json → Json :=
  fun l => Json.arr (l.foldr JsonArr.cons JsonArr.nil)

/-- Build a JSON object from a key/value list (insertion order, as a Python
dict literal). -/
def jobj (l : List (String × Json)) : Json :=
  Json.obj (l.foldr (fun kv tl => JsonObj.cons kv.1 kv.2 tl) JsonObj.nil)

/-- Brace characters, by code point. -/
def lbraceC : Char := Char.ofNat 123

/-- Closing brace character, by code point. -/
def rbraceC : Char := Char.ofNat 125

/-- Four lower-case hex digits of a code unit, as in `json.dumps` unicode
escapes. -/
def hex4 (n : Nat) : List Char :=
  [hexDigit (n / 4096 % 16), hexDigit (n / 256 % 16),
   hexDigit (n / 16 % 16), hexDigit (n % 16)]

/-- Escape one character the way `json.dumps` does with its default
`ensure_ascii=True`: two-character escapes for the JSON control shorthands,
`u`-escapes for other control and all non-ASCII characters (surrogate
pairs beyond the BMP), everything else literal. -/
def jsonEscChar (c : Char) : List Char :=
  let n := c.toNat
  if n == 34 then ['\\', Char.ofNat 34]
  else if n == 92 then ['\\', '\\']
  else if n == 10 then ['\\', 'n']
  else if n == 13 then ['\\', 'r']
  else if n == 9 then ['\\', 't']
  else if n == 8 then ['\\', 'b']
  else if n == 12 then ['\\', 'f']
  else if n < 32 then '\\' :: 'u' :: hex4 n
  else if n < 127 then [c]
  else if n < 65536 then '\\' :: 'u' :: hex4 n
  else ('\\' :: 'u' :: hex4 (55296 + (n - 65536) / 1024)) ++
       ('\\' :: 'u' :: hex4 (56320 + (n - 65536) % 1024))

/-- A string as a quoted JSON string literal, `json.dumps` style. -/
def jsonQuote (s : String) : String :=
  String.mk (Char.ofNat 34 :: s.data.flatMap jsonEscChar ++ [Char.ofNat 34])

mutual

/-- Serialize a JSON value with the given item and key separators,
mirroring `json.dumps(value, separators=(itemSep, kvSep))`.  Object fields
are emitted in list order; key sorting is a separate canonicalization
pass. -/
def Json.ser (itemSep kvSep : String) : Json → String
  | .null => "null"
  | .bool true => "true"
  | .bool false => "false"
  | .int n => toString n
  | .str s => jsonQuote s
  | .arr xs => "[" ++ JsonArr.ser itemSep kvSep xs ++ "]"
  | .obj fs =>
      String.singleton lbraceC ++ JsonObj.ser itemSep kvSep fs ++
        String.singleton rbraceC

/-- Serialize array elements joined by the item separator. -/
def JsonArr.ser (itemSep kvSep : String) : JsonArr → String
  | .nil => ""
  | .cons hd .nil => Json.ser itemSep kvSep hd
  | .cons hd (.cons h2 tl) =>
      Json.ser itemSep kvSep hd ++ itemSep ++
        JsonArr.ser itemSep kvSep (JsonArr.cons h2 tl)

/-- Serialize object fields joined by the separators. -/
def JsonObj.ser (itemSep kvSep : String) : JsonObj → String
  | .nil => ""
  | .cons k v .nil => jsonQuote k ++ kvSep ++ Json.ser itemSep kvSep v
  | .cons k v (.cons k2 v2 tl) =>
      jsonQuote k ++ kvSep ++ Json.ser itemSep kvSep v ++ itemSep ++
        JsonObj.ser itemSep kvSep (JsonObj.cons k2 v2 tl)

end

/-- Code-point lexicographic comparison on character lists, Python's `<`
on strings. -/
def charListLt : List Char → List Char → Bool
  | [], [] => false
  | [], _ :: _ => true
  | _ :: _, [] => false
  | a :: as, b :: bs =>
      if a.toNat < b.toNat then true
      else if b.toNat < a.toNat then false
      else charListLt as bs

/-- Python's `<` on strings. -/
def strLt (a b : String) : Bool := charListLt a.data b.data

/-- Insert a field into an object sorted by key, preserving ascending
code-point order (Python's string `<` on keys). -/
def objInsert (k : String) (v : Json) : JsonObj → JsonObj
  | .nil => .cons k v .nil
  | .cons k2 v2 tl =>
      if strLt k k2 then .cons k v (.cons k2 v2 tl)
      else .cons k2 v2 (objInsert k v tl)

mutual

/-- Canonicalize a JSON value: sort every object's keys ascending, at every
depth, as `json.dumps(..., sort_keys=True)` does at serialization time. -/
def Json.canon : Json → Json
  | .null => .null
  | .bool b => .bool b
  | .int n => .int n
  | .str s => .str s
  | .arr xs => .arr (JsonArr.canon xs)
  | .obj fs => .obj (JsonObj.canon fs)

/-- Canonicalize each array element. -/
def JsonArr.canon : JsonArr → JsonArr
  | .nil => .nil
  | .cons hd tl => .cons (Json.canon hd) (JsonArr.canon tl)

/-- Canonicalize each field value, then insert into a key-sorted object. -/
def JsonObj.canon : JsonObj → JsonObj
  | .nil => .nil
  | .cons k v tl => objInsert k (Json.canon v) (JsonObj.canon tl)

end

/-- `json.dumps(value, sort_keys=True, separators=(",", ":"))`: the
canonical JSON rendering used for payload hashing and state hashing. -/
def dumpsCanonical (j : Json) : String := Json.ser "," ":" (Json.canon j)

/-- `json.dumps(value, sort_keys=True)` with Python's default separators
(comma-space and colon-space), as the translator uses for its payload
hash. -/
def dumpsSortedDefault (j : Json) : String := Json.ser ", " ": " (Json.canon j)

/-! ## UTF-8 and small string helpers -/

/-- UTF-8 encoding of one character. -/
def utf8Char (c : Char) : Bytes :=
  let n := c.toNat
  if n < 128 then [n]
  else if n < 2048 then [192 + n / 64, 128 + n % 64]
  else if n < 65536 then [224 + n / 4096, 128 + n / 64 % 64, 128 + n % 64]
  else [240 + n / 262144, 128 + n / 4096 % 64, 128 + n / 64 % 64, 128 + n % 64]

/-- UTF-8 encoding of a string, as Python's `str.encode("utf-8")`. -/
def utf8 (s : String) : Bytes := s.data.flatMap utf8Char

/-- Whether the first list begins with the second one. -/
def leadsWith : List Char → List Char → Bool
  | _, [] => true
  | [], _ :: _ => false
  | a :: as, b :: bs => a == b && leadsWith as bs

/-- Whether the second list occurs inside the first (Python's `in` on
strings). -/
def hasSub : List Char → List Char → Bool
  | [], needle => needle.isEmpty
  | h :: t, needle => leadsWith (h :: t) needle || hasSub t needle

/-- Python's `needle in hay` on strings. -/
def strContains (hay needle : String) : Bool := hasSub hay.data needle.data

/-- Python's `str.startswith`. -/
def strStartsWith (s pat : String) : Bool := leadsWith s.data pat.data

/-- Python's `str.lower` (ASCII range, which is all the source compares). -/
def strLower (s : String) : String := String.mk (s.data.map Char.toLower)

/-- Python's `str.strip` for the whitespace the gateway headers can carry:
drop leading and trailing spaces, tabs, newlines and carriage returns. -/
def pyStrip (s : String) : String :=
  let isWs := fun c : Char => c == ' ' || c == '\t' || c == '\n' || c == '\r'
  String.mk ((s.data.dropWhile isWs).reverse.dropWhile isWs).reverse

/-! ## `uuid.uuid5` -/

/-- The 16 bytes of the fixed namespace UUID
`6ba7b810-9dad-11d1-80b4-00c04fd430c8` (the RFC 4122 DNS namespace) that
the translator passes to `uuid.uuid5`. -/
def namespaceDNSBytes : Bytes :=
  [107, 167, 184, 16, 157, 173, 17, 209, 128, 180, 0, 192, 79, 212, 48, 200]

/-- `uuid.uuid5(namespace, name)`: SHA-1 of the namespace bytes followed by
the UTF-8 name, truncated to 16 bytes, with the version nibble forced to 5
and the variant bits forced to RFC 4122. -/
def uuid5 (ns : Bytes) (name : String) : Bytes :=
  match (sha1 (ns ++ utf8 name)).take 16 with
  | [b0, b1, b2, b3, b4, b5, b6, b7, b8, b9, b10, b11, b12, b13, b14, b15] =>
      [b0, b1, b2, b3, b4, b5, (b6 &&& 15) ||| 80, b7,
       (b8 &&& 63) ||| 128, b9, b10, b11, b12, b13, b14, b15]
  | other => other

/-- Hyphenated lower-case hex rendering of a 16-byte UUID, as Python's
`str(uuid_value)`. -/
def uuidStr (bs : Bytes) : String :=
  bytesToHex (bs.take 4) ++ "-" ++ bytesToHex ((bs.drop 4).take 2) ++ "-" ++
    bytesToHex ((bs.drop 6).take 2) ++ "-" ++
    bytesToHex ((bs.drop 8).take 2) ++ "-" ++ bytesToHex (bs.drop 10)

/-! ## JSON object access helpers (Python dict operations) -/

/-- Look up a key in an object's fields (first match, as a Python dict has
unique keys). -/
def JsonObj.lookup : JsonObj → String → Option Json
  | .nil, _ => none
  | .cons k v tl, key => if k == key then some v else JsonObj.lookup tl key

/-- Python `d[k]` read on a JSON value; `none` both when the value is not a
dict and when the key is absent (the KeyError cases). -/
def Json.getKey : Json → String → Option Json
  | .obj fs, key => fs.lookup key
  | _, _ => none

/-- Python `d[k] = v`: replace in place when the key is present, append
otherwise. -/
def JsonObj.setKey : JsonObj → String → Json → JsonObj
  | .nil, key, v => .cons key v .nil
  | .cons k v2 tl, key, v =>
      if k == key then .cons k v tl else .cons k v2 (JsonObj.setKey tl key v)

/-- Python `d[k] = v` on a JSON value (no-op on non-objects). -/
def Json.setKey : Json → String → Json → Json
  | .obj fs, key, v => .obj (fs.setKey key v)
  | j, _, _ => j

/-- Drop the named keys from an object (a Python dict comprehension with a
`not in` filter). -/
def JsonObj.removeKeys : JsonObj → List String → JsonObj
  | .nil, _ => .nil
  | .cons k v tl, keys =>
      if keys.contains k then JsonObj.removeKeys tl keys
      else .cons k v (JsonObj.removeKeys tl keys)

/-- Drop the named keys from a JSON value (no-op on non-objects). -/
def Json.removeKeys : Json → List String → Json
  | .obj fs, keys => .obj (fs.removeKeys keys)
  | j, _ => j

/-- Number of fields of an object. -/
def JsonObj.size : JsonObj → Nat
  | .nil => 0
  | .cons _ _ tl => 1 + JsonObj.size tl

/-- Python truthiness of a JSON value: empty dicts, empty lists, empty
strings, zero, `False` and `None` are falsy. -/
def Json.truthy : Json → Bool
  | .null => false
  | .bool b => b
  | .int n => n ≠ 0
  | .str s => s ≠ ""
  | .arr .nil => false
  | .arr (.cons _ _) => true
  | .obj .nil => false
  | .obj (.cons _ _ _) => true

/-- Read a string-valued key; errors mirror the Python `KeyError` (or the
downstream type error a non-string value would raise). -/
def jReqStr (j : Json) (key : String) : Except String String :=
  match j.getKey key with
  | some (.str s) => .ok s
  | some _ => .error ("TypeError: " ++ key)
  | none => .error ("KeyError: " ++ key)

/-- Read an int-valued key with `KeyError` semantics. -/
def jReqInt (j : Json) (key : String) : Except String Int :=
  match j.getKey key with
  | some (.int n) => .ok n
  | some _ => .error ("TypeError: " ++ key)
  | none => .error ("KeyError: " ++ key)

/-- Read a dict-valued key with `KeyError` semantics. -/
def jReqObj (j : Json) (key : String) : Except String Json :=
  match j.getKey key with
  | some (.obj fs) => .ok (.obj fs)
  | some _ => .error ("TypeError: " ++ key)
  | none => .error ("KeyError: " ++ key)

/-- Python `d.get(k, default)` for strings: the default applies only when
the key is absent. -/
def jGetStrD (j : Json) (key dflt : String) : Except String String :=
  match j.getKey key with
  | some (.str s) => .ok s
  | some _ => .error ("TypeError: " ++ key)
  | none => .ok dflt

/-- Python `d.get(k)` for optional strings: absent and JSON null both read
as `None`. -/
def jGetStrOpt (j : Json) (key : String) : Except String (Option String) :=
  match j.getKey key with
  | some (.str s) => .ok (some s)
  | some .null => .ok none
  | some _ => .error ("TypeError: " ++ key)
  | none => .ok none

/-- Elements of a JSON array as a list. -/
def JsonArr.toList : JsonArr → List Json
  | .nil => []
  | .cons hd tl => hd :: JsonArr.toList tl

/-- Python `d.get(k, [])` read as a list of JSON values. -/
def jGetArrD (j : Json) (key : String) : Except String (List Json) :=
  match j.getKey key with
  | some (.arr xs) => .ok xs.toList
  | some _ => .error ("TypeError: " ++ key)
  | none => .ok []

/-- Python `d.get(k, [])` read as a list of strings (a `text[]` bind). -/
def jGetStrListD (j : Json) (key : String) : Except String (List String) :=
  match j.getKey key with
  | some (.arr xs) =>
      xs.toList.foldr
        (fun v acc =>
          match v, acc with
          | .str s, .ok l => .ok (s :: l)
          | _, .ok _ => .error ("TypeError: " ++ key)
          | _, .error e => .error e)
        (.ok [])
  | some _ => .error ("TypeError: " ++ key)
  | none => .ok []

/-- An optional string as a JSON value (`None` becomes null). -/
def optStr : Option String → Json
  | some s => .str s
  | none => .null

/-! ## Gateway: envelope model (`services/gateway/models.py`) -/

/-- The client-supplied event envelope, after pydantic parsing
(`EventEnvelope` in `models.py`).  The audit dict `by` is called `byObj`
because `by` is a Lean keyword. -/
structure Envelope where
  world_id : String
  branch : String
  kind : String
  payload : Json
  byObj : Json
  version : Int := 1
  occurred_at : Option String := none
  causation_id : Option String := none

/-- `envelope.dict()`: the pydantic field dict in declaration order, with
`None` fields as JSON null. -/
def Envelope.dict (e : Envelope) : Json :=
  jobj [("world_id", .str e.world_id), ("branch", .str e.branch),
        ("kind", .str e.kind), ("payload", e.payload), ("by", e.byObj),
        ("version", .int e.version), ("occurred_at", optStr e.occurred_at),
        ("causation_id", optStr e.causation_id)]

/-! ## Gateway: payload hashing (`services/gateway/persistence.py`) -/

/-- `EventPersistence._compute_payload_hash`: SHA-256 hex digest of
`json.dumps(envelope, sort_keys=True, separators=(",", ":"))` in UTF-8.
Note the argument the gateway passes is the whole enriched envelope dict,
not the payload field. -/
def computePayloadHash (envelope : Json) : String :=
  sha256Hex (utf8 (dumpsCanonical envelope))

/-- The enriched envelope at the moment the gateway computes its hash:
`envelope.dict()` with `received_at` already assigned and `payload_hash`
not yet assigned (`store_event`, lines 32 to 34). -/
def enrichedPreHash (e : Envelope) (receivedAt : String) : Json :=
  (e.dict).setKey "received_at" (.str receivedAt)

/-- The enriched envelope as stored: `received_at` plus the computed
`payload_hash` field. -/
def enrichedStored (e : Envelope) (receivedAt : String) : Json :=
  (enrichedPreHash e receivedAt).setKey "payload_hash"
    (.str (computePayloadHash (enrichedPreHash e receivedAt)))

/-- The hash the specification prescribes: SHA-256 of the canonical JSON of
the envelope's `payload` field alone. -/
def specPayloadHash (payload : Json) : String :=
  sha256Hex (utf8 (dumpsCanonical payload))

/-! ## Projector SDK: payload-hash verification
(`projectors/sdk/projector.py`, `_verify_payload_hash`) -/

/-- `ProjectorSDK._verify_payload_hash`: strip the server-added
`received_at` and `payload_hash` keys, serialize canonically, hash, and
compare with the expected hex digest. -/
def verifyPayloadHash (envelope : Json) (expectedHash : String) : Bool :=
  let canonicalEnvelope := envelope.removeKeys ["received_at", "payload_hash"]
  sha256Hex (utf8 (dumpsCanonical canonicalEnvelope)) == expectedHash

/-! ## Gateway: header validation (`services/gateway/validation.py`) -/

/-- Whether a character is a hex digit. -/
def isHexChar (c : Char) : Bool :=
  (48 ≤ c.toNat && c.toNat ≤ 57) || (97 ≤ c.toNat && c.toNat ≤ 102) ||
    (65 ≤ c.toNat && c.toNat ≤ 70)

/-- Replace every occurrence of a pattern, fuel-indexed so the recursion is
structural. -/
def replaceAllGo : Nat → List Char → List Char → List Char → List Char
  | 0, hay, _, _ => hay
  | _ + 1, [], _, _ => []
  | fuel + 1, h :: t, needle, repl =>
      if needle ≠ [] && leadsWith (h :: t) needle then
        repl ++ replaceAllGo fuel ((h :: t).drop needle.length) needle repl
      else h :: replaceAllGo fuel t needle repl

/-- Python `str.replace`. -/
def strReplaceAll (s needle repl : String) : String :=
  String.mk (replaceAllGo s.data.length s.data needle.data repl.data)

/-- `uuid.UUID(s)` acceptance: drop `urn:` and `uuid:` fragments, strip
surrounding braces, drop hyphens, and require exactly 32 hex digits. -/
def isUuidString (s : String) : Bool :=
  let s1 := strReplaceAll (strReplaceAll s "urn:" "") "uuid:" ""
  let isBrace := fun c : Char => c == lbraceC || c == rbraceC
  let core := ((s1.data.dropWhile isBrace).reverse.dropWhile isBrace).reverse
  let hexOnly := core.filter (fun c => c ≠ '-')
  hexOnly.length == 32 && hexOnly.all isHexChar && core.all
    (fun c => c == '-' || isHexChar c)

/-- The normalized headers `validate_headers` returns. -/
structure Headers where
  idempotency_key : Option String
  correlation_id : String
deriving DecidableEq, Repr

/-- `EventValidationMiddleware.validate_headers`.  The Python guard is
`if idempotency_key and len(idempotency_key.strip()) == 0`, so the check
runs only when the header value is truthy, that is non-empty; the fresh
UUID that `str(uuid.uuid4())` would generate is passed in as `freshUuid`
to keep the function pure. -/
def validateHeaders (idemKey corrId : Option String) (freshUuid : String) :
    Except String Headers :=
  let ik := idemKey.getD ""
  if (idemKey.isSome && ik ≠ "") && (pyStrip ik).length == 0 then
    .error "Idempotency-Key cannot be empty string"
  else
    let cid := corrId.getD ""
    if (corrId.isSome && cid ≠ "") && !(isUuidString cid) then
      .error "X-Correlation-Id must be valid UUID format"
    else
      .ok { idempotency_key :=
              if idemKey.isSome && ik ≠ "" then some (pyStrip ik) else none,
            correlation_id := if corrId.isSome && cid ≠ "" then cid
              else freshUuid }

/-- Branch name characters admitted by the `^[a-zA-Z0-9_-]+$` pattern. -/
def isBranchChar (c : Char) : Bool :=
  (97 ≤ c.toNat && c.toNat ≤ 122) || (65 ≤ c.toNat && c.toNat ≤ 90) ||
    (48 ≤ c.toNat && c.toNat ≤ 57) || c == '_' || c == '-'

/-- Number of parts `kind.split(".")` yields: one more than the number of
dots. -/
def splitDotCount (s : String) : Nat :=
  1 + (s.data.filter (fun c => c == '.')).length

/-- Whether `kind.split(".")` would yield an empty category or action: with
exactly one dot, the pieces before and after it. -/
def kindPartsNonempty (s : String) : Bool :=
  match s.data.splitOn '.' with
  | [cat, act] => !cat.isEmpty && !act.isEmpty
  | _ => false

/-- A permissive stand-in for `datetime.fromisoformat` acceptance after the
`Z` to `+00:00` rewrite: the claims under verification never exercise
malformed timestamps, so acceptance is modelled as a basic shape check
(length and digit positions of `YYYY-MM-DD...`). -/
def isIsoTimestamp (s : String) : Bool :=
  let t := strReplaceAll s "Z" "+00:00"
  match t.data with
  | y1 :: y2 :: y3 :: y4 :: d1 :: m1 :: m2 :: d2 :: dd1 :: dd2 :: rest =>
      y1.isDigit && y2.isDigit && y3.isDigit && y4.isDigit && d1 == '-' &&
        m1.isDigit && m2.isDigit && d2 == '-' && dd1.isDigit && dd2.isDigit &&
        (rest.isEmpty || rest.headD ' ' == 'T' || rest.headD ' ' == ' ')
  | _ => false

/-- Pydantic field validation of `EventEnvelope` (`models.py`): `world_id`
a UUID, `by.agent` present, `occurred_at` parseable when given. -/
def validateEnvelopeFields (e : Envelope) : Except String Unit :=
  if !(isUuidString e.world_id) then .error "world_id must be a valid UUID"
  else if (e.byObj.getKey "agent").isNone then
    .error "by.agent is required for audit trail"
  else
    match e.occurred_at with
    | some ts =>
        if isIsoTimestamp ts then .ok ()
        else .error "occurred_at must be valid ISO8601 timestamp"
    | none => .ok ()

/-- `EventValidationMiddleware._validate_business_rules`. -/
def validateBusinessRules (e : Envelope) : Except String Unit :=
  if !(e.branch ≠ "" && e.branch.data.all isBranchChar) then
    .error "Branch name must be alphanumeric with hyphens/underscores"
  else if !(strContains e.kind "." && splitDotCount e.kind == 2) then
    .error "Event kind must be in format category.action"
  else if !(e.payload.truthy) then .error "Event payload cannot be empty"
  else if e.version < 1 || e.version > 2 then
    .error "Event envelope version must be 1 or 2"
  else if e.branch.length > 100 then
    .error "Branch name cannot exceed 100 characters"
  else if !(kindPartsNonempty e.kind) then
    .error "Event kind category and action cannot be empty"
  else
    let agent :=
      match e.byObj.getKey "agent" with
      | some (.str s) => s
      | _ => ""
    if agent == "" || (pyStrip agent).length == 0 then
      .error "Audit agent cannot be empty"
    else .ok ()

/-- `EventValidationMiddleware.validate_envelope`: pydantic validation
followed by the business rules. -/
def validateEnvelope (e : Envelope) : Except String Envelope :=
  match validateEnvelopeFields e with
  | .error msg => .error ("Envelope validation failed: " ++ msg)
  | .ok _ =>
      match validateBusinessRules e with
      | .error msg => .error ("Envelope validation failed: " ++ msg)
      | .ok _ => .ok e

/-! ## Gateway: event store (`services/gateway/persistence.py` and the
`event_core` schema) -/

/-- One row of `event_core.event_log`.  The envelope column holds the
serialized enriched envelope exactly as `json.dumps(enriched_envelope)`
produced it. -/
structure LogRow where
  event_id : String
  world_id : String
  branch : String
  kind : String
  envelope : String
  global_seq : Nat
  received_at : String
  idempotency_key : Option String
deriving DecidableEq, Repr

/-- One outbox row, co-written with each append.
Modelled from the spec: the `event_core.insert_event_with_outbox` database
function and the outbox schema are not under `src/`; section 3.3 of the
specification lists the columns. -/
structure OutboxRow where
  global_seq : Nat
  world_id : String
  branch : String
  kind : String
  envelope : String
  payload_hash : String
  published_at : Option String
  attempts : Nat
  last_error : Option String
  next_retry_at : Option String
deriving DecidableEq, Repr

/-- The persistent store the gateway appends to: event log plus outbox. -/
structure Store where
  log : List LogRow
  outbox : List OutboxRow
deriving DecidableEq, Repr

/-- The empty store. -/
def Store.empty : Store := ⟨[], []⟩

/-- Largest assigned sequence number. -/
def maxSeq (log : List LogRow) : Nat :=
  log.foldl (fun acc r => max acc r.global_seq) 0

/-- Modelled from the spec: `event_core.insert_event_with_outbox` (called
by `store_event` but not under `src/`) assigns the next `global_seq` from
the monotonic generator and inserts the log row and the outbox row in one
transaction. -/
def insertEventWithOutbox (st : Store) (worldId branch eventId kind
    envelopeStr : String) (receivedAt : String)
    (idemKey : Option String) (payloadHash : String) : Store × Nat :=
  let seq := maxSeq st.log + 1
  let row : LogRow :=
    ⟨eventId, worldId, branch, kind, envelopeStr, seq, receivedAt, idemKey⟩
  let obx : OutboxRow :=
    ⟨seq, worldId, branch, kind, envelopeStr, payloadHash, none, 0, none,
      none⟩
  (⟨st.log ++ [row], st.outbox ++ [obx]⟩, seq)

/-- What `store_event` returns on success. -/
structure StoreResult where
  event_id : String
  global_seq : Nat
  received_at : String
deriving DecidableEq, Repr

/-- `EventPersistence._check_idempotency`: the first log row carrying the
same `(world_id, branch, idempotency_key)` tuple. -/
def checkIdempotency (log : List LogRow) (worldId branch idemKey : String) :
    Option LogRow :=
  log.find? (fun r =>
    r.world_id == worldId && r.branch == branch &&
      r.idempotency_key == some idemKey)

/-- `EventPersistence.store_event`.  The wall-clock `received_at` and the
fresh `event_id` that `datetime.utcnow` and `uuid.uuid4` would produce are
passed in as parameters; a `ConflictError` is the `Except.error` case and
carries the Python exception message. -/
def storeEvent (st : Store) (e : Envelope) (headers : Headers)
    (receivedAt eventId : String) : Except String (Store × StoreResult) :=
  let pre := enrichedPreHash e receivedAt
  let payloadHash := computePayloadHash pre
  let enriched := pre.setKey "payload_hash" (.str payloadHash)
  let ik := headers.idempotency_key.getD ""
  if headers.idempotency_key.isSome && ik ≠ "" then
    match checkIdempotency st.log e.world_id e.branch ik with
    | some _ => .error ("Duplicate idempotency key: " ++ ik)
    | none =>
        let ins := insertEventWithOutbox st e.world_id e.branch eventId
          e.kind (Json.ser ", " ": " enriched) receivedAt
          (some ik) payloadHash
        .ok (ins.1, ⟨eventId, ins.2, receivedAt⟩)
  else
    let ins := insertEventWithOutbox st e.world_id e.branch eventId
      e.kind (Json.ser ", " ": " enriched) receivedAt
      headers.idempotency_key payloadHash
    .ok (ins.1, ⟨eventId, ins.2, receivedAt⟩)

/-- The gateway's response to an append, as `create_event` maps results:
`201 accepted` with the server fields, or an error status with
`code`, `message` and `correlation_id`. -/
inductive ApiResponse where
  | accepted (event_id : String) (global_seq : Nat) (received_at : String)
      (correlation_id : String) : ApiResponse
  | apiError (status : Nat) (code : String) (message : String)
      (correlation_id : String) : ApiResponse
deriving DecidableEq, Repr

/-- `create_event` (`services/gateway/main.py`): generate a correlation id
when absent, validate headers and envelope, store, and map the outcome to
a response.  A `ConflictError` becomes `409 idempotency_conflict` and the
store is left exactly as it was. -/
def createEvent (st : Store) (e : Envelope)
    (idemKeyHeader corrIdHeader : Option String)
    (freshCorrId receivedAt eventId : String) : Store × ApiResponse :=
  let corrId :=
    match corrIdHeader with
    | some c => if c ≠ "" then c else freshCorrId
    | none => freshCorrId
  match validateHeaders idemKeyHeader (some corrId) freshCorrId with
  | .error msg => (st, .apiError 400 "validation_error" msg corrId)
  | .ok headers =>
      match validateEnvelope e with
      | .error msg => (st, .apiError 400 "validation_error" msg corrId)
      | .ok validated =>
          match storeEvent st validated headers receivedAt eventId with
          | .error msg =>
              (st, .apiError 409 "idempotency_conflict" msg corrId)
          | .ok (st2, result) =>
              (st2, .accepted result.event_id result.global_seq
                result.received_at corrId)

/-- Whether two log rows collide on a present idempotency tuple. -/
def sameTuple (r1 r2 : LogRow) : Bool :=
  r1.idempotency_key.isSome && r1.idempotency_key == r2.idempotency_key &&
    r1.world_id == r2.world_id && r1.branch == r2.branch

/-- At most one log row per `(world_id, branch, idempotency_key)` tuple
with the key present. -/
def tupleUnique : List LogRow → Bool
  | [] => true
  | r :: rest => rest.all (fun r2 => !(sameTuple r r2)) && tupleUnique rest

/-! ## Projector SDK: watermarks (`projectors/sdk/projector.py`,
`get_watermark` and `set_watermark`) -/

/-- One row of `event_core.projector_watermarks`. -/
structure WmRow where
  projector_name : String
  world_id : String
  branch : String
  last_processed_seq : Nat
deriving DecidableEq, Repr

/-- `ProjectorSDK.get_watermark`: the stored sequence, `or 0` when no row
exists. -/
def getWatermark : List WmRow → String → String → String → Nat
  | [], _, _, _ => 0
  | r :: rest, n, w, b =>
      if r.projector_name == n && r.world_id == w && r.branch == b then
        r.last_processed_seq
      else getWatermark rest n w b

/-- `ProjectorSDK.set_watermark`: the SQL upsert
`INSERT ... ON CONFLICT (projector_name, world_id, branch) DO UPDATE SET
last_processed_seq = EXCLUDED.last_processed_seq` — an unconditional
overwrite of the stored sequence with the delivered one. -/
def setWatermark : List WmRow → String → String → String → Nat → List WmRow
  | [], n, w, b, s => [⟨n, w, b, s⟩]
  | r :: rest, n, w, b, s =>
      if r.projector_name == n && r.world_id == w && r.branch == b then
        { r with last_processed_seq := s } :: rest
      else r :: setWatermark rest n w b s

/-! ## CDC Publisher (`services/publisher/main.py`) -/

/-- `CDCPublisher._send_to_projector`: the HTTP POST of the event to one
subscriber, abstracted over the status code the subscriber answers with.
Any status other than 200 or 202 raises `RuntimeError`. -/
def sendToProjector (status : Nat) : Except String Unit :=
  if status == 200 || status == 202 then .ok ()
  else .error ("Projector returned " ++ toString status)

/-- `CDCPublisher._publish_event`: deliver to every subscriber endpoint in
turn; a raised delivery error flips the success flag to `False` and the
loop continues.  The event is counted successfully published only when the
flag survives every subscriber. -/
def publishEvent (statuses : List Nat) : Bool :=
  statuses.foldl
    (fun success status =>
      match sendToProjector status with
      | .ok _ => success
      | .error _ => false)
    true

/-! ## Relational projector (`projectors/relational/projector.py`) -/

/-- One row of `lens_rel.note`. -/
structure NoteRow where
  world_id : String
  branch : String
  note_id : String
  title : String
  body : String
  created_at : String
  updated_at : String
deriving DecidableEq, Repr

/-- One row of `lens_rel.note_tag`. -/
structure NoteTagRow where
  world_id : String
  branch : String
  note_id : String
  tag : String
  applied_at : String
deriving DecidableEq, Repr

/-- One row of `lens_rel.link`. -/
structure LinkRow where
  world_id : String
  branch : String
  src_id : String
  dst_id : String
  link_type : String
  created_at : String
deriving DecidableEq, Repr

/-- One row of `lens_emo.emo_current`. -/
structure EmoCurrentRow where
  emo_id : String
  emo_type : String
  emo_version : Int
  tenant_id : String
  world_id : String
  branch : String
  mime_type : String
  content : Option String
  tags : List String
  source_kind : String
  source_uri : Option String
  deleted : Bool
  deleted_at : Option String
  deletion_reason : Option String
  updated_at : String
deriving DecidableEq, Repr

/-- One row of `lens_emo.emo_history`.  The create and update inserts leave
`change_id`, `operation_type` and `idempotency_key` to their column
defaults; the delete insert fills them. -/
structure EmoHistoryRow where
  change_id : Option String
  emo_id : String
  emo_version : Int
  world_id : String
  branch : String
  operation_type : Option String
  content_hash : String
  idempotency_key : Option String
  updated_at : Option String
deriving DecidableEq, Repr

/-- One row of `lens_emo.emo_links`. -/
structure EmoLinkRow where
  emo_id : String
  world_id : String
  branch : String
  rel : String
  target_emo_id : Option String
  target_uri : Option String
  created_at : String
deriving DecidableEq, Repr

/-- The lens tables the relational projector owns. -/
structure RelState where
  notes : List NoteRow
  noteTags : List NoteTagRow
  links : List LinkRow
  emoCurrent : List EmoCurrentRow
  emoHistory : List EmoHistoryRow
  emoLinks : List EmoLinkRow
deriving DecidableEq, Repr

/-- The empty lens state. -/
def RelState.empty : RelState := ⟨[], [], [], [], [], []⟩

/-- `RelationalProjector._compute_emo_content_hash`: SHA-256 hex of the
UTF-8 content. -/
def computeEmoContentHash (content : String) : String :=
  sha256Hex (utf8 content)

/-- `_handle_note_created`: insert with
`ON CONFLICT (world_id, branch, note_id) DO NOTHING`; both timestamps are
`COALESCE(payload created_at, now())`. -/
def handleNoteCreated (st : RelState) (worldId branch : String)
    (payload : Json) (now : String) : Except String RelState := do
  let noteId ← jReqStr payload "id"
  let title ← jReqStr payload "title"
  let body ← jGetStrD payload "body" ""
  let createdAt ← jGetStrOpt payload "created_at"
  let ts := createdAt.getD now
  if st.notes.any (fun r =>
      r.world_id == worldId && r.branch == branch && r.note_id == noteId)
  then
    .ok st
  else
    .ok { st with notes :=
      st.notes ++ [⟨worldId, branch, noteId, title, body, ts, ts⟩] }

/-- `_handle_note_updated`: update title, body and `updated_at` on the
matching identity (no-op when the row is absent). -/
def handleNoteUpdated (st : RelState) (worldId branch : String)
    (payload : Json) (now : String) : Except String RelState := do
  let noteId ← jReqStr payload "id"
  let title ← jReqStr payload "title"
  let body ← jGetStrD payload "body" ""
  let updatedAt ← jGetStrOpt payload "updated_at"
  let ts := updatedAt.getD now
  .ok { st with notes := st.notes.map (fun r =>
    if r.world_id == worldId && r.branch == branch && r.note_id == noteId
    then { r with title := title, body := body, updated_at := ts }
    else r) }

/-- `_handle_note_deleted`: touch the note row's `updated_at`, then delete
the note's tags and any link touching it. -/
def handleNoteDeleted (st : RelState) (worldId branch : String)
    (payload : Json) (now : String) : Except String RelState := do
  let noteId ← jReqStr payload "id"
  .ok { st with
    notes := st.notes.map (fun r =>
      if r.world_id == worldId && r.branch == branch && r.note_id == noteId
      then { r with updated_at := now } else r),
    noteTags := st.noteTags.filter (fun r =>
      !(r.world_id == worldId && r.branch == branch &&
        r.note_id == noteId)),
    links := st.links.filter (fun r =>
      !(r.world_id == worldId && r.branch == branch &&
        (r.src_id == noteId || r.dst_id == noteId))) }

/-- `_handle_tag_added`: insert with
`ON CONFLICT (world_id, branch, note_id, tag) DO NOTHING`. -/
def handleTagAdded (st : RelState) (worldId branch : String)
    (payload : Json) (now : String) : Except String RelState := do
  let noteId ← jReqStr payload "id"
  let tag ← jReqStr payload "tag"
  let appliedAt ← jGetStrOpt payload "applied_at"
  let ts := appliedAt.getD now
  if st.noteTags.any (fun r =>
      r.world_id == worldId && r.branch == branch && r.note_id == noteId &&
        r.tag == tag)
  then .ok st
  else .ok { st with noteTags :=
    st.noteTags ++ [⟨worldId, branch, noteId, tag, ts⟩] }

/-- `_handle_tag_removed`: delete the matching tag rows. -/
def handleTagRemoved (st : RelState) (worldId branch : String)
    (payload : Json) : Except String RelState := do
  let noteId ← jReqStr payload "id"
  let tag ← jReqStr payload "tag"
  .ok { st with noteTags := st.noteTags.filter (fun r =>
    !(r.world_id == worldId && r.branch == branch && r.note_id == noteId &&
      r.tag == tag)) }

/-- `_handle_link_added`: insert with conflict-do-nothing on the full key;
the link type defaults to `default`. -/
def handleLinkAdded (st : RelState) (worldId branch : String)
    (payload : Json) (now : String) : Except String RelState := do
  let src ← jReqStr payload "src"
  let dst ← jReqStr payload "dst"
  let linkType ← jGetStrD payload "link_type" "default"
  let createdAt ← jGetStrOpt payload "created_at"
  let ts := createdAt.getD now
  if st.links.any (fun r =>
      r.world_id == worldId && r.branch == branch && r.src_id == src &&
        r.dst_id == dst && r.link_type == linkType)
  then .ok st
  else .ok { st with links :=
    st.links ++ [⟨worldId, branch, src, dst, linkType, ts⟩] }

/-- `_handle_link_removed`: delete the matching link rows. -/
def handleLinkRemoved (st : RelState) (worldId branch : String)
    (payload : Json) : Except String RelState := do
  let src ← jReqStr payload "src"
  let dst ← jReqStr payload "dst"
  let linkType ← jGetStrD payload "link_type" "default"
  .ok { st with links := st.links.filter (fun r =>
    !(r.world_id == worldId && r.branch == branch && r.src_id == src &&
      r.dst_id == dst && r.link_type == linkType)) }

/-- The parent and link fields `_handle_emo_links` reads from a payload. -/
structure EmoLinkSpec where
  parents : List (String × String)
  emoRefs : List String
  uriRefs : List String

/-- Read `payload.get("parents", [])` and `payload.get("links", [])` the
way `_handle_emo_links` consumes them: each parent as `(rel, emo_id)`,
each link as an emo or uri reference. -/
def readEmoLinkSpec (payload : Json) : Except String EmoLinkSpec := do
  let parents ← jGetArrD payload "parents"
  let parentPairs ← parents.foldrM
    (fun p acc => do
      let rel ← jReqStr p "rel"
      let pid ← jReqStr p "emo_id"
      pure ((rel, pid) :: acc))
    []
  let links ← jGetArrD payload "links"
  let refs ← links.foldrM
    (fun l acc => do
      let kind ← jReqStr l "kind"
      if kind == "emo" then do
        let r ← jReqStr l "ref"
        pure ((r, true) :: acc)
      else if kind == "uri" then do
        let r ← jReqStr l "ref"
        pure ((r, false) :: acc)
      else pure acc)
    []
  pure ⟨parentPairs, (refs.filter (·.2)).map (·.1),
    (refs.filter (!·.2)).map (·.1)⟩

/-- `_handle_emo_links`: clear every link row of this EMO identity, then
re-insert rows for `parents[]` and `links[]`. -/
def handleEmoLinks (st : RelState) (worldId branch : String)
    (payload : Json) (now : String) : Except String RelState := do
  let emoId ← jReqStr payload "emo_id"
  let spec ← readEmoLinkSpec payload
  let cleared := st.emoLinks.filter (fun r =>
    !(r.emo_id == emoId && r.world_id == worldId && r.branch == branch))
  let parentRows := spec.parents.map (fun p =>
    (⟨emoId, worldId, branch, p.1, some p.2, none, now⟩ : EmoLinkRow))
  let emoRows := spec.emoRefs.map (fun r =>
    (⟨emoId, worldId, branch, "linked", some r, none, now⟩ : EmoLinkRow))
  let uriRows := spec.uriRefs.map (fun r =>
    (⟨emoId, worldId, branch, "linked", none, some r, now⟩ : EmoLinkRow))
  .ok { st with emoLinks := cleared ++ parentRows ++ emoRows ++ uriRows }

/-- `_handle_emo_created`: insert the current row with
`ON CONFLICT (emo_id, world_id, branch) DO NOTHING`, insert the history
row with conflict-do-nothing on `(emo_id, emo_version, world_id, branch)`,
then apply `_handle_emo_links`. -/
def handleEmoCreated (st : RelState) (worldId branch : String)
    (payload : Json) (now : String) : Except String RelState := do
  let emoId ← jReqStr payload "emo_id"
  let emoType ← jReqStr payload "emo_type"
  let emoVersion ← jReqInt payload "emo_version"
  let tenantId ← jReqStr payload "tenant_id"
  let mimeType ← jGetStrD payload "mime_type" "text/markdown"
  let content ← jGetStrOpt payload "content"
  let tags ← jGetStrListD payload "tags"
  let source ← jReqObj payload "source"
  let sourceKind ← jReqStr source "kind"
  let sourceUri ← jGetStrOpt source "uri"
  let st1 :=
    if st.emoCurrent.any (fun r =>
        r.emo_id == emoId && r.world_id == worldId && r.branch == branch)
    then st
    else { st with emoCurrent := st.emoCurrent ++
      [⟨emoId, emoType, emoVersion, tenantId, worldId, branch, mimeType,
        content, tags, sourceKind, sourceUri, false, none, none, now⟩] }
  let st2 :=
    if st1.emoHistory.any (fun r =>
        r.emo_id == emoId && r.emo_version == emoVersion &&
          r.world_id == worldId && r.branch == branch)
    then st1
    else { st1 with emoHistory := st1.emoHistory ++
      [⟨none, emoId, emoVersion, worldId, branch, none,
        computeEmoContentHash (content.getD ""), none, some now⟩] }
  handleEmoLinks st2 worldId branch payload now

/-- `_handle_emo_updated`: `UPDATE lens_emo.emo_current SET emo_version,
content, tags, mime_type, updated_at WHERE` the identity matches — with no
guard comparing the stored version against the incoming one — then insert
the history row and replace the links. -/
def handleEmoUpdated (st : RelState) (worldId branch : String)
    (payload : Json) (now : String) : Except String RelState := do
  let emoId ← jReqStr payload "emo_id"
  let emoVersion ← jReqInt payload "emo_version"
  let content ← jGetStrOpt payload "content"
  let tags ← jGetStrListD payload "tags"
  let mimeType ← jGetStrD payload "mime_type" "text/markdown"
  let st1 : RelState := { st with emoCurrent := st.emoCurrent.map (fun r =>
    if r.emo_id == emoId && r.world_id == worldId && r.branch == branch
    then { r with
        emo_version := emoVersion, content := content,
        tags := tags, mime_type := mimeType, updated_at := now }
    else r) }
  let st2 :=
    if st1.emoHistory.any (fun r =>
        r.emo_id == emoId && r.emo_version == emoVersion &&
          r.world_id == worldId && r.branch == branch)
    then st1
    else { st1 with emoHistory := st1.emoHistory ++
      [⟨none, emoId, emoVersion, worldId, branch, none,
        computeEmoContentHash (content.getD ""), none, some now⟩] }
  handleEmoLinks st2 worldId branch payload now

/-- `_handle_emo_deleted`: soft-delete the current row, then record the
deletion in history keyed by its idempotency key. -/
def handleEmoDeleted (st : RelState) (worldId branch : String)
    (payload : Json) (now : String) : Except String RelState := do
  let emoId ← jReqStr payload "emo_id"
  let emoVersion ← (match payload.getKey "emo_version" with
    | some (.int n) => Except.ok n
    | some _ => Except.error "TypeError: emo_version"
    | none => Except.ok 1)
  let deletionReason ← jGetStrOpt payload "deletion_reason"
  let idemKey ← jGetStrOpt payload "idempotency_key"
  let changeId ← jGetStrOpt payload "change_id"
  let st1 : RelState := { st with emoCurrent := st.emoCurrent.map (fun r =>
    if r.emo_id == emoId && r.world_id == worldId && r.branch == branch
    then { r with
        deleted := true, deleted_at := some now,
        deletion_reason := deletionReason, updated_at := now }
    else r) }
  let st2 :=
    if st1.emoHistory.any (fun r =>
        r.idempotency_key.isSome && r.idempotency_key == idemKey)
    then st1
    else { st1 with emoHistory := st1.emoHistory ++
      [⟨changeId, emoId, emoVersion, worldId, branch, some "deleted",
        computeEmoContentHash "", idemKey, none⟩] }
  .ok st2

/-- `RelationalProjector.apply`: dispatch on the envelope's `kind`;
unknown kinds are logged and ignored.  The wall-clock instant the
database's `now()` would return during this apply is the `now`
parameter. -/
def relApply (st : RelState) (envelope : Json) (now : String) :
    Except String RelState := do
  let kind ← jReqStr envelope "kind"
  let payload ← (match envelope.getKey "payload" with
    | some p => Except.ok p
    | none => Except.error "KeyError: payload")
  let worldId ← jReqStr envelope "world_id"
  let branch ← jReqStr envelope "branch"
  if kind == "note.created" then
    handleNoteCreated st worldId branch payload now
  else if kind == "note.updated" then
    handleNoteUpdated st worldId branch payload now
  else if kind == "note.deleted" then
    handleNoteDeleted st worldId branch payload now
  else if kind == "tag.added" then
    handleTagAdded st worldId branch payload now
  else if kind == "tag.removed" then
    handleTagRemoved st worldId branch payload
  else if kind == "link.added" then
    handleLinkAdded st worldId branch payload now
  else if kind == "link.removed" then
    handleLinkRemoved st worldId branch payload
  else if kind == "emo.created" then
    handleEmoCreated st worldId branch payload now
  else if kind == "emo.updated" then
    handleEmoUpdated st worldId branch payload now
  else if kind == "emo.linked" then
    handleEmoLinks st worldId branch payload now
  else if kind == "emo.deleted" then
    handleEmoDeleted st worldId branch payload now
  else .ok st

/-- Stable insertion sort by a string key, the `ORDER BY` of the snapshot
queries. -/
def sortInsert (key : α → String) (x : α) : List α → List α
  | [] => [x]
  | y :: ys => if strLt (key x) (key y) then x :: y :: ys
    else y :: sortInsert key x ys

/-- Sort a row list ascending by key. -/
def sortByKey (key : α → String) : List α → List α
  | [] => []
  | x :: xs => sortInsert key x (sortByKey key xs)

/-- `RelationalProjector._get_state_snapshot`: the four sorted row sets of
the lens, serialized the way `serialize_record` and the JSON layer render
them.  Note the note, tag and link rows expose their timestamp columns and
the EMO rows expose `updated_at` — values the handlers fill from `now()`
at apply time. -/
def relSnapshot (st : RelState) (worldId branch : String) : Json :=
  let notes := sortByKey (·.note_id) (st.notes.filter (fun r =>
    r.world_id == worldId && r.branch == branch))
  let tags := sortByKey (fun r => r.note_id ++ "\x00" ++ r.tag)
    (st.noteTags.filter (fun r =>
      r.world_id == worldId && r.branch == branch))
  let links := sortByKey (fun r => r.src_id ++ "\x00" ++ r.dst_id ++
      "\x00" ++ r.link_type)
    (st.links.filter (fun r =>
      r.world_id == worldId && r.branch == branch))
  let emos := sortByKey (·.emo_id) (st.emoCurrent.filter (fun r =>
    r.world_id == worldId && r.branch == branch))
  jobj
    [("lens", .str "relational"),
     ("world_id", .str worldId),
     ("branch", .str branch),
     ("notes", jarr (notes.map (fun r => jobj
        [("note_id", .str r.note_id), ("title", .str r.title),
         ("body", .str r.body), ("created_at", .str r.created_at),
         ("updated_at", .str r.updated_at)]))),
     ("tags", jarr (tags.map (fun r => jobj
        [("note_id", .str r.note_id), ("tag", .str r.tag),
         ("applied_at", .str r.applied_at)]))),
     ("links", jarr (links.map (fun r => jobj
        [("src_id", .str r.src_id), ("dst_id", .str r.dst_id),
         ("link_type", .str r.link_type),
         ("created_at", .str r.created_at)]))),
     ("emos", jarr (emos.map (fun r => jobj
        [("emo_id", .str r.emo_id), ("emo_type", .str r.emo_type),
         ("emo_version", .int r.emo_version),
         ("updated_at", .str r.updated_at),
         ("deleted", .bool r.deleted)])))]

/-- `ProjectorSDK.compute_state_hash`: SHA-256 hex of the canonical JSON of
the snapshot. -/
def computeStateHash (st : RelState) (worldId branch : String) : String :=
  sha256Hex (utf8 (dumpsCanonical (relSnapshot st worldId branch)))

/-! ## Memory-to-EMO translator
(`projectors/translator_memory_to_emo/translator_memory_to_emo.py`) -/

/-- `MemoryToEMOTranslator._derive_emo_id`: UUIDv5 over the fixed namespace
`6ba7b810-9dad-11d1-80b4-00c04fd430c8` and the name `memory:` followed by
the legacy memory id. -/
def deriveEmoId (memoryId : String) : Bytes :=
  uuid5 namespaceDNSBytes ("memory:" ++ memoryId)

/-- One row the translator's `_emit_emo_event` inserts into
`event_core.event_log`; the envelope column holds
`json.dumps(emo_envelope)`. -/
structure EmittedRow where
  event_id : String
  world_id : String
  branch : String
  kind : String
  envelope : String
  occurred_at : Option String
  payload_hash : String
deriving DecidableEq, Repr

/-- The translator's working state: its in-process `_emo_versions` cache,
its read view of `lens_emo.emo_current`, and the event-log rows it has
emitted. -/
structure TransState where
  cache : List (String × Nat)
  emoCurrent : List EmoCurrentRow
  emitted : List EmittedRow
deriving DecidableEq, Repr

/-- The cache key `f"..."` string `emo_id:world_id:branch`. -/
def cacheKey (emoId worldId branch : String) : String :=
  emoId ++ ":" ++ worldId ++ ":" ++ branch

/-- `_get_emo_current_version`: cache hit first, else the
`SELECT emo_version ... AND NOT deleted` query with `or 0`, caching the
answer. -/
def getEmoCurrentVersion (st : TransState) (emoId worldId branch : String) :
    TransState × Nat :=
  match st.cache.lookup (cacheKey emoId worldId branch) with
  | some v => (st, v)
  | none =>
      let v :=
        match st.emoCurrent.find? (fun r =>
          r.emo_id == emoId && r.world_id == worldId &&
            r.branch == branch && !r.deleted) with
        | some r => r.emo_version.toNat
        | none => 0
      ({ st with cache := (cacheKey emoId worldId branch, v) :: st.cache }, v)

/-- `_infer_emo_type`: document when long or heading-marked, fact or
profile on title keywords, note otherwise. -/
def inferEmoType (payload : Json) : Except String String := do
  let content ← jGetStrD payload "content"
    (← jGetStrD payload "body" "")
  let title ← jGetStrD payload "title" ""
  if content.length > 1000 || strContains content "# " ||
      strContains content "## " then
    .ok "doc"
  else if ["fact", "definition", "rule"].any
      (fun w => strContains (strLower title) w) then
    .ok "fact"
  else if ["profile", "person", "contact"].any
      (fun w => strContains (strLower title) w) then
    .ok "profile"
  else .ok "note"

/-- `_extract_source_info`: source kind inferred from the audit agent
text, URI from `source_uri` or `uri` when truthy. -/
def extractSourceInfo (envelope payload : Json) : Except String Json := do
  let byObj := (envelope.getKey "by").getD (jobj [])
  let agent ←
    match byObj.getKey "agent" with
    | some (.str s) => Except.ok s
    | some _ => Except.error "TypeError: agent"
    | none => Except.ok "unknown"
  let kind :=
    if agent == "user" || strContains (strLower agent) "user" then "user"
    else if strContains (strLower agent) "ingest" ||
        strContains (strLower agent) "import" then "ingest"
    else "agent"
  let sourceUri ← jGetStrOpt payload "source_uri"
  let uri ← jGetStrOpt payload "uri"
  let chosen :=
    match sourceUri with
    | some s => if s ≠ "" then some s else
        (match uri with | some u => if u ≠ "" then some u else none
                        | none => none)
    | none =>
        (match uri with | some u => if u ≠ "" then some u else none
                        | none => none)
  match chosen with
  | some u => .ok (jobj [("kind", .str kind), ("uri", .str u)])
  | none => .ok (jobj [("kind", .str kind)])

/-- `_infer_parents`: derived, supersedes and merges parents from
`parent_id`, `supersedes` and `merged_from[]`. -/
def inferParents (payload : Json) : Except String (List Json) := do
  let parentId ← jGetStrOpt payload "parent_id"
  let supersedesId ← jGetStrOpt payload "supersedes"
  let mergedFrom ← jGetStrListD payload "merged_from"
  let p1 :=
    match parentId with
    | some pid =>
        if pid ≠ "" then
          [jobj [("emo_id", .str (uuidStr (deriveEmoId pid))),
                 ("rel", .str "derived")]]
        else []
    | none => []
  let p2 :=
    match supersedesId with
    | some sid =>
        if sid ≠ "" then
          [jobj [("emo_id", .str (uuidStr (deriveEmoId sid))),
                 ("rel", .str "supersedes")]]
        else []
    | none => []
  let p3 := mergedFrom.map (fun mid =>
    jobj [("emo_id", .str (uuidStr (deriveEmoId mid))),
          ("rel", .str "merges")])
  .ok (p1 ++ p2 ++ p3)

/-- `_extract_links`: URI links from `links[]` strings or dicts with a
`uri` key, and EMO links from `references[]`. -/
def extractLinks (payload : Json) : Except String (List Json) := do
  let rawLinks ← jGetArrD payload "links"
  let uriLinks := rawLinks.foldr
    (fun l acc =>
      match l with
      | .str s => jobj [("kind", .str "uri"), ("ref", .str s)] :: acc
      | .obj fs =>
          match (Json.obj fs).getKey "uri" with
          | some (.str u) =>
              jobj [("kind", .str "uri"), ("ref", .str u)] :: acc
          | _ => acc
      | _ => acc)
    []
  let refs ← jGetStrListD payload "references"
  let emoLinks := refs.map (fun rid =>
    jobj [("kind", .str "emo"),
          ("ref", .str (uuidStr (deriveEmoId rid)))])
  .ok (uriLinks ++ emoLinks)

/-- `_extract_vector_meta`: the four recognised embedding keys, or `None`
when the payload carries no truthy embedding info or none of the keys. -/
def extractVectorMeta (payload : Json) : Except String Json := do
  match payload.getKey "embedding" with
  | none => .ok .null
  | some emb =>
      if !emb.truthy then .ok .null
      else
        let keep := ["model_id", "embed_dim", "model_version",
          "template_id"].foldr
          (fun k acc =>
            match emb.getKey k with
            | some v => (k, v) :: acc
            | none => acc)
          []
        if keep.isEmpty then .ok .null else .ok (jobj keep)

/-- The `emo_envelope` dict `_translate_memory_upserted` builds, before
`_emit_emo_event` serializes it.  The translated version and kind depend
on the cached or stored current version; everything else is a function of
the incoming envelope and payload. -/
def buildUpsertEnvelope (st : TransState) (envelope payload : Json) :
    Except String (TransState × Json) := do
  let memoryId ← jReqStr payload "id"
  let worldId ← jReqStr envelope "world_id"
  let branch ← jReqStr envelope "branch"
  let emoId := uuidStr (deriveEmoId memoryId)
  let lookup := getEmoCurrentVersion st emoId worldId branch
  let st1 := lookup.1
  let currentVersion := lookup.2
  let isNew := currentVersion == 0
  let newVersion := if isNew then 1 else currentVersion + 1
  let emoType ← inferEmoType payload
  let tenantId ←
    match envelope.getKey "tenant_id" with
    | some (.str s) => Except.ok s
    | some _ => Except.error "TypeError: tenant_id"
    | none => Except.ok worldId
  let source ← extractSourceInfo envelope payload
  let mimeType ← jGetStrD payload "mime_type" "text/markdown"
  let content ←
    match payload.getKey "content" with
    | some v => Except.ok v
    | none =>
        match payload.getKey "body" with
        | some v => Except.ok v
        | none => Except.ok (.str "")
  let tags ← (match payload.getKey "tags" with
    | some (.arr xs) => Except.ok (Json.arr xs)
    | some _ => Except.error "TypeError: tags"
    | none => Except.ok (jarr []))
  let parents ← inferParents payload
  let links ← extractLinks payload
  let vmeta ← extractVectorMeta payload
  let occurredAt :=
    match envelope.getKey "occurred_at" with
    | some v => v
    | none => .null
  let traceId :=
    match envelope.getKey "trace_id" with
    | some v => v
    | none => .null
  let emoEnvelope := jobj
    [("world_id", .str worldId),
     ("branch", .str branch),
     ("kind", .str (if isNew then "emo.created" else "emo.updated")),
     ("by", (envelope.getKey "by").getD .null),
     ("payload", jobj
        [("emo_id", .str emoId),
         ("emo_type", .str emoType),
         ("emo_version", .int (Int.ofNat newVersion)),
         ("tenant_id", .str tenantId),
         ("world_id", .str worldId),
         ("branch", .str branch),
         ("source", source),
         ("mime_type", .str mimeType),
         ("content", content),
         ("tags", tags),
         ("parents", jarr parents),
         ("links", jarr links),
         ("vector_meta", vmeta),
         ("schema_version", .int 1)]),
     ("occurred_at", occurredAt),
     ("trace_id", traceId)]
  .ok (st1, emoEnvelope)

/-- `_emit_emo_event`: compute the payload hash with
`json.dumps(payload, sort_keys=True)` (default separators), then insert
the event-log row — or raise when the database insert fails, which the
`emitFails` flag stands for. -/
def emitEmoEvent (st : TransState) (emoEnvelope : Json)
    (freshEventId : String) (emitFails : Bool) :
    Except String TransState := do
  let payload ← (match emoEnvelope.getKey "payload" with
    | some p => Except.ok p
    | none => Except.error "KeyError: payload")
  let payloadHash := sha256Hex (utf8 (dumpsSortedDefault payload))
  let worldId ← jReqStr emoEnvelope "world_id"
  let branch ← jReqStr emoEnvelope "branch"
  let kind ← jReqStr emoEnvelope "kind"
  let occurredAt ← jGetStrOpt emoEnvelope "occurred_at"
  if emitFails then .error "Failed to emit EMO event"
  else
    .ok { st with emitted := st.emitted ++
      [⟨freshEventId, worldId, branch, kind,
        Json.ser ", " ": " emoEnvelope, occurredAt, payloadHash⟩] }

/-- `_translate_memory_upserted`: build the translated envelope, emit it,
then cache the new version under `emo_id:world_id:branch`. -/
def translateMemoryUpserted (st : TransState) (envelope payload : Json)
    (freshEventId : String) (emitFails : Bool) :
    Except String TransState := do
  let built ← buildUpsertEnvelope st envelope payload
  let st1 := built.1
  let emoEnvelope := built.2
  let st2 ← emitEmoEvent st1 emoEnvelope freshEventId emitFails
  let memoryId ← jReqStr payload "id"
  let worldId ← jReqStr envelope "world_id"
  let branch ← jReqStr envelope "branch"
  let emoId := uuidStr (deriveEmoId memoryId)
  let newVersion ←
    match (emoEnvelope.getKey "payload").bind (·.getKey "emo_version") with
    | some (.int n) => Except.ok n.toNat
    | _ => Except.error "emo_version"
  .ok { st2 with cache :=
    (cacheKey emoId worldId branch, newVersion) :: st2.cache }

/-- `_translate_memory_deleted`: derive the id, read the current version,
return silently when it is 0, otherwise emit `emo.deleted` at the current
version. -/
def translateMemoryDeleted (st : TransState) (envelope payload : Json)
    (freshEventId : String) (emitFails : Bool) :
    Except String TransState := do
  let memoryId ← jReqStr payload "id"
  let worldId ← jReqStr envelope "world_id"
  let branch ← jReqStr envelope "branch"
  let emoId := uuidStr (deriveEmoId memoryId)
  let lookup := getEmoCurrentVersion st emoId worldId branch
  let st1 := lookup.1
  let currentVersion := lookup.2
  if currentVersion == 0 then .ok st1
  else
    let tenantId :=
      match envelope.getKey "tenant_id" with
      | some (.str s) => s
      | _ => worldId
    let emoEnvelope := jobj
      [("world_id", .str worldId),
       ("branch", .str branch),
       ("kind", .str "emo.deleted"),
       ("by", (envelope.getKey "by").getD .null),
       ("payload", jobj
          [("emo_id", .str emoId),
           ("emo_version", .int (Int.ofNat currentVersion)),
           ("tenant_id", .str tenantId),
           ("world_id", .str worldId),
           ("branch", .str branch),
           ("schema_version", .int 1)]),
       ("occurred_at", (envelope.getKey "occurred_at").getD .null),
       ("trace_id", (envelope.getKey "trace_id").getD .null)]
    emitEmoEvent st1 emoEnvelope freshEventId emitFails

/-- The body of the translator's `try` block: dispatch the three
recognised memory event kinds, warn-and-continue otherwise. -/
def translateInner (st : TransState) (kind : String) (envelope payload :
    Json) (freshEventId : String) (emitFails : Bool) :
    Except String TransState :=
  if kind == "memory.item.upserted" then
    translateMemoryUpserted st envelope payload freshEventId emitFails
  else if kind == "memory.item.deleted" then
    translateMemoryDeleted st envelope payload freshEventId emitFails
  else if kind == "memory.embed.generated" then .ok st
  else .ok st

/-- `MemoryToEMOTranslator.apply`: read the envelope fields (outside the
`try`), skip non-memory kinds, and run the translation inside a
`try/except` that logs and swallows every exception instead of
re-raising, "to avoid blocking other projectors". -/
def transApply (st : TransState) (envelope : Json)
    (freshEventId : String) (emitFails : Bool) :
    Except String TransState := do
  let kind ← jReqStr envelope "kind"
  let _ ← (match envelope.getKey "payload" with
    | some p => Except.ok p
    | none => Except.error "KeyError: payload")
  let payload := (envelope.getKey "payload").getD .null
  let _ ← jReqStr envelope "world_id"
  let _ ← jReqStr envelope "branch"
  if !(strStartsWith kind "memory.") then .ok st
  else
    match translateInner st kind envelope payload freshEventId emitFails
    with
    | .ok st2 => .ok st2
    | .error _ => .ok st

/-! ## Projector SDK: the shared `/events` reception endpoint
(`projectors/sdk/projector.py`, `receive_event`), specialized to the
translator projector it hosts -/

/-- What the endpoint answers the publisher: the `EventResponse` with
status `processed`, or an `HTTPException` with its status code and
detail. -/
inductive RecvResponse where
  | processed (global_seq : Nat) : RecvResponse
  | httpError (status : Nat) (detail : String) : RecvResponse
deriving DecidableEq, Repr

/-- The translator service's full state: projector state plus its rows in
the shared watermark table. -/
structure TransSys where
  trans : TransState
  watermarks : List WmRow
deriving DecidableEq, Repr

/-- `receive_event` as the SDK installs it for the translator: verify the
payload hash when one is supplied, extract the tenant, run `apply`, and
on success upsert the watermark for `(translator_memory_to_emo, world_id,
branch)` to the delivered `global_seq` and acknowledge with `processed`.
Any exception escaping those steps becomes a 500; `apply` itself swallows
translation and emission failures, so those still acknowledge. -/
def translatorReceiveEvent (sys : TransSys) (globalSeq : Nat)
    (envelope : Json) (payloadHash : Option String)
    (freshEventId : String) (emitFails : Bool) : TransSys × RecvResponse :=
  let verified :=
    match payloadHash with
    | some h => if h ≠ "" then verifyPayloadHash envelope h else true
    | none => true
  if !verified then (sys, .httpError 400 "Payload hash mismatch")
  else
    match jReqStr envelope "world_id" with
    | .error e => (sys, .httpError 500 e)
    | .ok worldId =>
        match transApply sys.trans envelope freshEventId emitFails with
        | .error e => (sys, .httpError 500 e)
        | .ok st2 =>
            match jReqStr envelope "branch" with
            | .error e => (sys, .httpError 500 e)
            | .ok branch =>
                ({ trans := st2,
                   watermarks := setWatermark sys.watermarks
                     "translator_memory_to_emo" worldId branch globalSeq },
                 .processed globalSeq)

/-! ## Small result-inspection helpers and concrete scenario inputs -/

/-- Whether an `Except` carries a success. -/
def isOkB : Except String α → Bool
  | .ok _ => true
  | .error _ => false

/-- A tenant id used by the concrete scenarios. -/
def wId : String := "550e8400-e29b-41d4-a716-446655440001"

/-- A concrete appended envelope: scenario S1's note event. -/
def s1Envelope : Envelope :=
  { world_id := wId, branch := "main", kind := "note.created",
    payload := jobj [("id", .str "n1"), ("title", .str "T")],
    byObj := jobj [("agent", .str "t")] }

/-- The wall-clock string of the first concrete append. -/
def s1ReceivedAt : String := "2025-01-01T00:00:00.000000Z"

/-- The first concrete append against the empty store, with idempotency
key `k1`. -/
def s1First : Store × ApiResponse :=
  createEvent Store.empty s1Envelope (some "k1") none
    "1f0e8400-e29b-41d4-a716-446655440aaa" s1ReceivedAt
    "e10e8400-e29b-41d4-a716-446655440e01"

/-- The second concrete append: same envelope, same idempotency key,
fresh correlation id, wall clock and event id. -/
def s1Second : Store × ApiResponse :=
  createEvent s1First.1 s1Envelope (some "k1") none
    "2f0e8400-e29b-41d4-a716-446655440bbb" "2025-01-01T00:00:01.000000Z"
    "e20e8400-e29b-41d4-a716-446655440e02"

/-- A concrete `emo.created` envelope as the relational projector receives
it, with EMO id `M` and content `A`. -/
def emoCreatedEnvelope (version : Int) (content : String) : Json :=
  jobj [("world_id", .str wId), ("branch", .str "main"),
        ("kind", .str "emo.created"),
        ("payload", jobj
           [("emo_id", .str "123e4567-e89b-12d3-a456-426614174000"),
            ("emo_type", .str "note"), ("emo_version", .int version),
            ("tenant_id", .str wId), ("content", .str content),
            ("tags", jarr []),
            ("source", jobj [("kind", .str "user")])]),
        ("by", jobj [("agent", .str "t")])]

/-- A concrete `emo.updated` envelope for the same EMO identity. -/
def emoUpdatedEnvelope (version : Int) (content : String) : Json :=
  jobj [("world_id", .str wId), ("branch", .str "main"),
        ("kind", .str "emo.updated"),
        ("payload", jobj
           [("emo_id", .str "123e4567-e89b-12d3-a456-426614174000"),
            ("emo_type", .str "note"), ("emo_version", .int version),
            ("tenant_id", .str wId), ("content", .str content),
            ("tags", jarr []),
            ("source", jobj [("kind", .str "user")])]),
        ("by", jobj [("agent", .str "t")])]

/-- One projector run: the fixed event sequence (a single `emo.created`)
applied to the empty lens state at the given wall-clock instant. -/
def c3Run (now : String) : Except String RelState :=
  relApply RelState.empty (emoCreatedEnvelope 1 "A") now

/-- The state hash after a run (or the error text when the run failed, a
case the theorems rule out). -/
def c3HashAfter (now : String) : String :=
  match c3Run now with
  | .ok st => computeStateHash st wId "main"
  | .error e => e

/-- The lens state holding EMO version 5 with content `B`, built by the
projector's own create handler. -/
def c6Setup : Except String RelState :=
  relApply RelState.empty (emoCreatedEnvelope 5 "B") "2025-01-01T00:00:00"

/-- The same state after an `emo.updated` carrying the smaller version 3
with content `A`. -/
def c6After : Except String RelState :=
  match c6Setup with
  | .ok st => relApply st (emoUpdatedEnvelope 3 "A") "2025-01-01T00:00:01"
  | .error e => .error e

/-- The stored version of the concrete EMO row after a run. -/
def c6VersionOf (r : Except String RelState) : Option Int :=
  match r with
  | .ok st =>
      (st.emoCurrent.find? (fun row =>
        row.emo_id == "123e4567-e89b-12d3-a456-426614174000")).map
        (·.emo_version)
  | .error _ => none

/-- The stored content of the concrete EMO row after a run. -/
def c6ContentOf (r : Except String RelState) : Option (Option String) :=
  match r with
  | .ok st =>
      (st.emoCurrent.find? (fun row =>
        row.emo_id == "123e4567-e89b-12d3-a456-426614174000")).map
        (·.content)
  | .error _ => none

/-- A concrete `memory.item.upserted` envelope with title `X` and body
`Y` on memory id `mem1` (scenario S3). -/
def s3Envelope : Json :=
  jobj [("world_id", .str wId), ("branch", .str "main"),
        ("kind", .str "memory.item.upserted"),
        ("by", jobj [("agent", .str "t")]),
        ("payload", jobj
           [("id", .str "mem1"), ("title", .str "X"),
            ("body", .str "Y")])]

/-- The payload of the concrete memory event. -/
def s3Payload : Json := (s3Envelope.getKey "payload").getD .null

/-- The translator's build of the translated EMO envelope for the concrete
memory event, from a cold state. -/
def s3Built : Except String (TransState × Json) :=
  buildUpsertEnvelope ⟨[], [], []⟩ s3Envelope s3Payload

/-- The `content` string of a built EMO envelope. -/
def builtContent (r : Except String (TransState × Json)) : Option String :=
  match r with
  | .ok (_, env) =>
      match (env.getKey "payload").bind (·.getKey "content") with
      | some (.str s) => some s
      | _ => none
  | .error _ => none

/-- The `emo_id` string of a built EMO envelope. -/
def builtEmoId (r : Except String (TransState × Json)) : Option String :=
  match r with
  | .ok (_, env) =>
      match (env.getKey "payload").bind (·.getKey "emo_id") with
      | some (.str s) => some s
      | _ => none
  | .error _ => none

/-- The Python expression the translator maps content with:
`payload.get("content", payload.get("body", ""))`. -/
def pyContentChoice (payload : Json) : Json :=
  match payload.getKey "content" with
  | some v => v
  | none =>
      match payload.getKey "body" with
      | some v => v
      | none => .str ""

/-- The translator state after the concrete build (cold state when the
build failed, which the theorems rule out). -/
def s3BuiltState : TransState :=
  match s3Built with
  | .ok (st, _) => st
  | .error _ => ⟨[], [], []⟩

/-- The built envelope of the concrete translation. -/
def s3BuiltOut : Json :=
  match s3Built with
  | .ok (_, out) => out
  | .error _ => .null

/-- A stored `emo_current` row at version 5 with content `B`, the starting
point of the concrete stale-update scenario. -/
def c6wRow : EmoCurrentRow :=
  ⟨"123e4567-e89b-12d3-a456-426614174000", "note", 5, wId, wId, "main",
    "text/markdown", some "B", [], "user", none, false, none, none,
    "2025-01-01T00:00:00"⟩

/-- The lens state holding only that row. -/
def c6wState : RelState := ⟨[], [], [], [c6wRow], [], []⟩

/-- The stale update's payload: version 3, content `A`. -/
def c6wPayload : Json :=
  ((emoUpdatedEnvelope 3 "A").getKey "payload").getD .null

/-- The lens state after applying the stale update (empty when the handler
failed, which the theorems rule out). -/
def c6wResult : RelState :=
  match handleEmoUpdated c6wState wId "main" c6wPayload
      "2025-01-01T00:00:01" with
  | .ok st => st
  | .error _ => RelState.empty

end MNX

/-- SHA-256 sanity vectors: the empty string and the string abc hash to the
published FIPS 180 test digests, so the embedding agrees with
`hashlib.sha256`. -/
theorem MNX.sha256_test_vectors :
    MNX.sha256Hex [] =
      "e3b0c44298fc1c149afbf4c8996fb92427ae41e4649b934ca495991b7852b855" ∧
    MNX.sha256Hex [97, 98, 99] =
      "ba7816bf8f01cfea414140de5dae2223b00361a396177a9cb410ff61f20015ad" := by
  constructor <;> decide

/-- SHA-1 sanity vectors: the empty string and the string abc hash to the
published FIPS 180 test digests, so the embedding agrees with
`hashlib.sha1`. -/
theorem MNX.sha1_test_vectors :
    MNX.bytesToHex (MNX.sha1 []) =
      "da39a3ee5e6b4b0d3255bfef95601890afd80709" ∧
    MNX.bytesToHex (MNX.sha1 [97, 98, 99]) =
      "a9993e364706816aba3e25717850c26c9cd0d89d" := by
  constructor <;> decide

namespace MNX

/-- After the upsert, the stored watermark for the upserted key is exactly
the sequence that was written. -/
theorem getWatermark_setWatermark (wms : List WmRow) (n w b : String)
    (s : Nat) : getWatermark (setWatermark wms n w b s) n w b = s := by
  induction wms with
  | nil => simp [setWatermark, getWatermark]
  | cons r rest ih =>
      by_cases h : (r.projector_name == n && r.world_id == w &&
        r.branch == b) = true
      · simp [setWatermark, getWatermark, h]
      · simp only [setWatermark, getWatermark, h]
        simp only [Bool.not_eq_true] at h
        simp [h, ih]

/-- The upsert touches no other watermark key. -/
theorem getWatermark_setWatermark_other (wms : List WmRow)
    (n w b n2 w2 b2 : String) (s : Nat)
    (hne : (n2 == n && w2 == w && b2 == b) = false) :
    getWatermark (setWatermark wms n w b s) n2 w2 b2 =
      getWatermark wms n2 w2 b2 := by
  induction wms with
  | nil =>
      simp only [setWatermark, getWatermark]
      split
      · next hc =>
          exfalso
          simp only [Bool.and_eq_true, beq_iff_eq] at hc
          obtain ⟨⟨e1, e2⟩, e3⟩ := hc
          simp [e1, e2, e3] at hne
      · rfl
  | cons r rest ih =>
      by_cases h : (r.projector_name == n && r.world_id == w &&
        r.branch == b) = true
      · by_cases h2 : (r.projector_name == n2 && r.world_id == w2 &&
          r.branch == b2) = true
        · exfalso
          simp only [Bool.and_eq_true, beq_iff_eq] at h h2
          obtain ⟨⟨e1, e2⟩, e3⟩ := h
          obtain ⟨⟨f1, f2⟩, f3⟩ := h2
          rw [e1] at f1; rw [e2] at f2; rw [e3] at f3
          simp [f1, f2, f3] at hne
        · simp [setWatermark, getWatermark, h, h2]
      · by_cases h2 : (r.projector_name == n2 && r.world_id == w2 &&
          r.branch == b2) = true
        · simp [setWatermark, getWatermark, h, h2]
        · simp [setWatermark, getWatermark, h, h2, ih]

end MNX

/-- Claim C4, counterexample: `set_watermark` does not implement
`last_processed_seq := MAX(old, global_seq)` — after a watermark of 5, a
delivery of sequence 3 drags the stored watermark back to 3, where the
claimed MAX semantics would keep 5. -/
theorem MNX.C4_watermark_counterexample :
    MNX.getWatermark
      (MNX.setWatermark (MNX.setWatermark [] "projector_rel" "w" "main" 5)
        "projector_rel" "w" "main" 3) "projector_rel" "w" "main" = 3 ∧
    ¬ (MNX.getWatermark
        (MNX.setWatermark
          (MNX.setWatermark [] "projector_rel" "w" "main" 5)
          "projector_rel" "w" "main" 3) "projector_rel" "w" "main" =
       max (MNX.getWatermark
         (MNX.setWatermark [] "projector_rel" "w" "main" 5)
         "projector_rel" "w" "main") 3) := by
  constructor <;> decide

/-- Claim C4, amended: the watermark upsert sets
`last_processed_seq := global_seq` unconditionally (an overwrite, not a
MAX), so the watermark is non-decreasing exactly when each reception's
`global_seq` is at least the stored watermark — which per-stream in-order
delivery provides. -/
theorem MNX.C4_watermark_amended :
    (∀ (wms : List MNX.WmRow) (n w b : String) (s : Nat),
      MNX.getWatermark (MNX.setWatermark wms n w b s) n w b = s) ∧
    (∀ (wms : List MNX.WmRow) (n w b : String) (s : Nat),
      MNX.getWatermark wms n w b ≤ s →
        MNX.getWatermark wms n w b ≤
          MNX.getWatermark (MNX.setWatermark wms n w b s) n w b) := by
  constructor
  · exact MNX.getWatermark_setWatermark
  · intro wms n w b s hle
    rw [MNX.getWatermark_setWatermark]
    exact hle

/-- Witness for the amended claim C4 at a concrete input. -/
theorem MNX.C4_watermark_amended_witness :
    MNX.getWatermark [] "projector_rel" "w" "main" ≤ 7 ∧
    MNX.getWatermark [] "projector_rel" "w" "main" ≤
      MNX.getWatermark (MNX.setWatermark [] "projector_rel" "w" "main" 7)
        "projector_rel" "w" "main" :=
  ⟨by decide,
   MNX.C4_watermark_amended.2 [] "projector_rel" "w" "main" 7 (by decide)⟩

namespace MNX

/-- Once the publisher's per-event success flag is down, no later
subscriber answer lifts it. -/
theorem publish_fold_false (statuses : List Nat) :
    statuses.foldl
      (fun success status =>
        match sendToProjector status with
        | .ok _ => success
        | .error _ => false)
      false = false := by
  induction statuses with
  | nil => rfl
  | cons s t ih =>
      cases hs : sendToProjector s with
      | ok a => simpa [List.foldl_cons, hs] using ih
      | error e => simpa [List.foldl_cons, hs] using ih

/-- The per-subscriber delivery succeeds exactly on the 200 and 202
acknowledgements. -/
theorem sendToProjector_ok_iff (s : Nat) :
    sendToProjector s = .ok () ↔ (s == 200 || s == 202) = true := by
  unfold sendToProjector
  split
  · next h => simpa using h
  · next h =>
      constructor
      · intro hc
        exact absurd hc (by simp)
      · intro hc
        exact absurd hc (by simpa using h)

end MNX

/-- Claim C5, counterexample: a subscriber answering HTTP 409 makes
`_send_to_projector` raise (`Projector returned 409`), and the event with
that single subscriber is counted failed — not, as claimed, successful. -/
theorem MNX.C5_409_counterexample :
    MNX.sendToProjector 409 = .error "Projector returned 409" ∧
    ¬ (MNX.publishEvent [409] = true) := by
  constructor
  · rfl
  · decide

/-- Claim C5, amended: the publisher counts a delivery attempt successful
iff every subscriber acknowledges with HTTP 200 or 202; any other status,
including `409 idempotency-already-applied`, raises and marks the event
failed (to be retried). -/
theorem MNX.C5_delivery_success_amended (statuses : List Nat) :
    MNX.publishEvent statuses =
      statuses.all (fun s => s == 200 || s == 202) := by
  induction statuses with
  | nil => rfl
  | cons s t ih =>
      by_cases h : (s == 200 || s == 202) = true
      · have hs : MNX.sendToProjector s = .ok () :=
          (MNX.sendToProjector_ok_iff s).mpr h
        simp only [MNX.publishEvent, List.foldl_cons, List.all_cons] at ih ⊢
        simp [hs, h, ih]
      · have hs : MNX.sendToProjector s =
            .error ("Projector returned " ++ toString s) := by
          unfold MNX.sendToProjector
          rw [if_neg]
          simpa using h
        simp only [MNX.publishEvent, List.foldl_cons, List.all_cons] at ih ⊢
        simp [hs, h, MNX.publish_fold_false]

/-- Claim C9: the gateway's guard
`if idempotency_key and len(idempotency_key.strip()) == 0` never fires for
the actually-empty header value, because the empty string is falsy — the
request is processed as if the header were absent (key normalized to
`None`), not rejected.  The guard does fire for a whitespace-only key,
which shows the rejection the error message promises was intended for
empty keys. -/
theorem MNX.C9_empty_idempotency_key_code_bug :
    MNX.validateHeaders (some "") none
      "1f0e8400-e29b-41d4-a716-446655440aaa" =
      .ok ⟨none, "1f0e8400-e29b-41d4-a716-446655440aaa"⟩ ∧
    MNX.validateHeaders none none
      "1f0e8400-e29b-41d4-a716-446655440aaa" =
      .ok ⟨none, "1f0e8400-e29b-41d4-a716-446655440aaa"⟩ ∧
    MNX.validateHeaders (some " ") none
      "1f0e8400-e29b-41d4-a716-446655440aaa" =
      .error "Idempotency-Key cannot be empty string" := by
  refine ⟨?_, ?_, ?_⟩ <;> rfl

/-- Claim C1: the gateway's stored `payload_hash` is not the SHA-256 of
the canonical payload alone — `_compute_payload_hash` receives the whole
enriched envelope, `received_at` included — and verification does not use
the same canonicalization: `_verify_payload_hash` strips `received_at`
before hashing, so it rejects the hash the gateway itself stored for the
very same event. -/
theorem MNX.C1_payload_hash_code_bug :
    MNX.computePayloadHash
        (MNX.enrichedPreHash MNX.s1Envelope MNX.s1ReceivedAt) ≠
      MNX.specPayloadHash MNX.s1Envelope.payload ∧
    MNX.verifyPayloadHash (MNX.enrichedStored MNX.s1Envelope MNX.s1ReceivedAt)
      (MNX.computePayloadHash
        (MNX.enrichedPreHash MNX.s1Envelope MNX.s1ReceivedAt)) = false := by
  constructor <;> decide

/-- Claim C3: the relational projector's state snapshot exposes
`updated_at` columns that the handlers fill from `now()` at apply time, so
two runs of the same single-event sequence (`emo.created`) against the
empty state, one second apart, both succeed yet produce different
`compute_state_hash` values — the hash depends on processing time, against
the determinism the snapshot docstrings and replay tests promise. -/
theorem MNX.C3_snapshot_hash_time_dependent :
    MNX.isOkB (MNX.c3Run "2025-01-01T00:00:00") = true ∧
    MNX.isOkB (MNX.c3Run "2025-01-01T00:00:01") = true ∧
    MNX.c3HashAfter "2025-01-01T00:00:00" ≠
      MNX.c3HashAfter "2025-01-01T00:00:01" := by
  refine ⟨by decide, by decide, by decide⟩

namespace MNX

/-- `validate_envelope` passes envelopes through unchanged. -/
theorem validateEnvelope_ok_eq {e v : Envelope}
    (h : validateEnvelope e = .ok v) : v = e := by
  unfold validateEnvelope at h
  cases hf : validateEnvelopeFields e with
  | error m => rw [hf] at h; exact absurd h (by simp)
  | ok u =>
      rw [hf] at h
      cases hb : validateBusinessRules e with
      | error m => rw [hb] at h; exact absurd h (by simp)
      | ok u2 =>
          rw [hb] at h
          exact (Except.ok.inj h).symm

/-- The idempotency key `validate_headers` hands onward is never the empty
string: the truthy branch strips a key whose strip was checked non-empty,
and every other branch normalizes to `None`. -/
theorem validateHeaders_key_ne_empty {ik cid : Option String} {f : String}
    {h : Headers} (hok : validateHeaders ik cid f = .ok h) :
    h.idempotency_key ≠ some "" := by
  unfold validateHeaders at hok
  by_cases hg1 : ((ik.isSome && decide (ik.getD "" ≠ "")) &&
      ((pyStrip (ik.getD "")).length == 0)) = true
  · rw [if_pos hg1] at hok
    exact absurd hok (by simp)
  · rw [if_neg hg1] at hok
    by_cases hg2 : (((cid.isSome && decide (cid.getD "" ≠ "")) &&
        !isUuidString (cid.getD "")) = true)
    · rw [if_pos hg2] at hok
      exact absurd hok (by simp)
    · rw [if_neg hg2] at hok
      have hh := Except.ok.inj hok
      subst hh
      by_cases ht : (ik.isSome && decide (ik.getD "" ≠ "")) = true
      · intro hcontra
        have hifeq : (if (ik.isSome && decide (ik.getD "" ≠ "")) = true
            then some (pyStrip (ik.getD "")) else none) = some "" :=
          hcontra
        rw [if_pos ht] at hifeq
        have hs : pyStrip (ik.getD "") = "" := Option.some.inj hifeq
        apply hg1
        rw [ht, hs]
        rfl
      · intro hcontra
        have hifeq : (if (ik.isSome && decide (ik.getD "" ≠ "")) = true
            then some (pyStrip (ik.getD "")) else none) = some "" :=
          hcontra
        rw [if_neg ht] at hifeq
        exact Option.noConfusion hifeq

/-- Appending a row keeps the tuple-uniqueness invariant iff the invariant
held and the new row clashes with no existing row. -/
theorem tupleUnique_append (l : List LogRow) (x : LogRow) :
    tupleUnique (l ++ [x]) = true ↔
      (tupleUnique l = true ∧ ∀ r ∈ l, sameTuple r x = false) := by
  induction l with
  | nil => simp [tupleUnique]
  | cons r t ih =>
      constructor
      · intro h
        simp only [List.cons_append, tupleUnique, Bool.and_eq_true] at h
        obtain ⟨hall, hrest⟩ := h
        simp only [List.append_eq] at hall
        rw [List.all_append] at hall
        simp only [Bool.and_eq_true, List.all_cons, List.all_nil,
          Bool.and_true, Bool.not_eq_true'] at hall
        obtain ⟨hallt, hx⟩ := hall
        obtain ⟨ht1, ht2⟩ := ih.mp hrest
        refine ⟨?_, ?_⟩
        · simp only [tupleUnique, Bool.and_eq_true]
          refine ⟨?_, ht1⟩
          simp only [List.all_eq_true, Bool.not_eq_true']
          intro r2 hr2
          simp only [List.all_eq_true, Bool.not_eq_true'] at hallt
          exact hallt r2 hr2
        · intro r2 hr2
          rcases List.mem_cons.mp hr2 with rfl | hr2t
          · exact hx
          · exact ht2 r2 hr2t
      · rintro ⟨hu, hall⟩
        simp only [tupleUnique, Bool.and_eq_true] at hu
        obtain ⟨hallt, ht⟩ := hu
        simp only [List.cons_append, tupleUnique, Bool.and_eq_true]
        refine ⟨?_, ih.mpr ⟨ht, fun r2 hr2 =>
          hall r2 (List.mem_cons_of_mem r hr2)⟩⟩
        simp only [List.append_eq]
        rw [List.all_append]
        simp only [Bool.and_eq_true, List.all_cons, List.all_nil,
          Bool.and_true, Bool.not_eq_true']
        exact ⟨hallt, hall r (List.mem_cons_self r t)⟩

/-- When the idempotency lookup finds nothing, no stored row matches the
tuple. -/
theorem checkIdempotency_none {log : List LogRow} {w b k : String}
    (h : checkIdempotency log w b k = none) :
    ∀ r ∈ log, (r.world_id == w && r.branch == b &&
      r.idempotency_key == some k) = false := by
  intro r hr
  have := List.find?_eq_none.mp h r hr
  simpa using this

/-- `store_event` preserves the at-most-one-row-per-tuple invariant for
every header set `validate_headers` can produce. -/
theorem storeEvent_preserves_unique {st : Store} {e : Envelope}
    {headers : Headers} {r eid : String} {st2 : Store} {res : StoreResult}
    (hkey : headers.idempotency_key ≠ some "")
    (hu : tupleUnique st.log = true)
    (hok : storeEvent st e headers r eid = .ok (st2, res)) :
    tupleUnique st2.log = true := by
  unfold storeEvent at hok
  by_cases ht : (headers.idempotency_key.isSome &&
      decide (headers.idempotency_key.getD "" ≠ "")) = true
  · rw [if_pos ht] at hok
    cases hc : checkIdempotency st.log e.world_id e.branch
        (headers.idempotency_key.getD "") with
    | some row => rw [hc] at hok; exact absurd hok (by simp)
    | none =>
        rw [hc] at hok
        have hst2 := congrArg Prod.fst (Except.ok.inj hok)
        simp only [insertEventWithOutbox] at hst2
        rw [← hst2]
        rw [tupleUnique_append]
        refine ⟨hu, ?_⟩
        intro rr hrr
        have hnone := checkIdempotency_none hc rr hrr
        cases hbool : sameTuple rr
            ⟨eid, e.world_id, e.branch, e.kind,
              Json.ser ", " ": " ((enrichedPreHash e r).setKey
                "payload_hash"
                (Json.str (computePayloadHash (enrichedPreHash e r)))),
              maxSeq st.log + 1, r,
              some (headers.idempotency_key.getD "")⟩ with
        | false => rfl
        | true =>
            exfalso
            simp only [sameTuple, Bool.and_eq_true] at hbool
            obtain ⟨⟨⟨_, hk⟩, hw⟩, hb⟩ := hbool
            have hcontra : (rr.world_id == e.world_id &&
                rr.branch == e.branch &&
                rr.idempotency_key ==
                  some (headers.idempotency_key.getD "")) = true := by
              rw [Bool.and_eq_true, Bool.and_eq_true]
              exact ⟨⟨hw, hb⟩, hk⟩
            rw [hnone] at hcontra
            cases hcontra
  · rw [if_neg ht] at hok
    have hst2 := congrArg Prod.fst (Except.ok.inj hok)
    simp only [insertEventWithOutbox] at hst2
    rw [← hst2]
    rw [tupleUnique_append]
    refine ⟨hu, ?_⟩
    intro rr hrr
    have hknone : headers.idempotency_key = none := by
      cases hk : headers.idempotency_key with
      | none => rfl
      | some s =>
          exfalso
          by_cases hs : s = ""
          · exact hkey (by rw [hk, hs])
          · apply ht
            rw [hk]
            simp [hs]
    cases hk2 : rr.idempotency_key <;>
      simp [sameTuple, hknone, hk2]

end MNX

/-- Claim C2, counterexample: the duplicate append is answered with a 409
`idempotency_conflict` and leaves the store byte-identical — but the
response body carries only `code`, `message` and `correlation_id`; the
first stored event is not returned (the second response differs from the
first), against the claim's "returning the first stored event". -/
theorem MNX.C2_conflict_counterexample :
    MNX.s1First.2 = .accepted "e10e8400-e29b-41d4-a716-446655440e01" 1
      MNX.s1ReceivedAt "1f0e8400-e29b-41d4-a716-446655440aaa" ∧
    MNX.s1Second.2 = .apiError 409 "idempotency_conflict"
      "Duplicate idempotency key: k1"
      "2f0e8400-e29b-41d4-a716-446655440bbb" ∧
    MNX.s1Second.1 = MNX.s1First.1 ∧
    MNX.s1Second.2 ≠ MNX.s1First.2 ∧
    MNX.tupleUnique MNX.s1Second.1.log = true := by
  refine ⟨by decide, by decide, by decide, by decide, by decide⟩

/-- Claim C2, amended: a second append with the same
`(world_id, branch, idempotency_key)` tuple is answered with a 409
`idempotency_conflict` error (code, duplicate-key message and correlation
id — not the first stored event's data) and writes nothing, leaving the
store unchanged; and every append preserves the at-most-one-row-per-tuple
invariant. -/
theorem MNX.C2_idempotent_append_amended :
    (∀ (st : MNX.Store) (e : MNX.Envelope) (ik fc r eid : String)
       (row : MNX.LogRow),
      MNX.validateEnvelope e = .ok e →
      MNX.isUuidString fc = true →
      ik ≠ "" →
      (MNX.pyStrip ik).length ≠ 0 →
      MNX.checkIdempotency st.log e.world_id e.branch (MNX.pyStrip ik) =
        some row →
      MNX.createEvent st e (some ik) none fc r eid =
        (st, .apiError 409 "idempotency_conflict"
          ("Duplicate idempotency key: " ++ MNX.pyStrip ik) fc)) ∧
    (∀ (st : MNX.Store) (e : MNX.Envelope) (ikH cidH : Option String)
       (fc r eid : String),
      MNX.tupleUnique st.log = true →
      MNX.tupleUnique (MNX.createEvent st e ikH cidH fc r eid).1.log =
        true) := by
  constructor
  · intro st e ik fc r eid row hv hf hik hlen hc
    have hstrip : MNX.pyStrip ik ≠ "" := by
      intro hh
      apply hlen
      rw [hh]
      rfl
    have hH : MNX.validateHeaders (some ik) (some fc) fc =
        .ok ⟨some (MNX.pyStrip ik), fc⟩ := by
      unfold MNX.validateHeaders
      rw [if_neg, if_neg]
      · simp [hik, hf]
      · simp [hf]
      · simp [hik, hlen]
    have hS : MNX.storeEvent st e ⟨some (MNX.pyStrip ik), fc⟩ r eid =
        .error ("Duplicate idempotency key: " ++ MNX.pyStrip ik) := by
      unfold MNX.storeEvent
      rw [if_pos]
      · simp only [Option.getD_some]
        rw [hc]
      · simp [hstrip]
    simp only [MNX.createEvent, hH, hv, hS]
  · intro st e ikH cidH fc r eid hu
    simp only [MNX.createEvent]
    split
    · simpa using hu
    · next headers hH =>
        split
        · simpa using hu
        · next v hv =>
            split
            · simpa using hu
            · next st2 res hs =>
                simpa using MNX.storeEvent_preserves_unique
                  (MNX.validateHeaders_key_ne_empty hH) hu hs

/-- Witness for the amended claim C2 at the concrete duplicate-append
scenario S1. -/
theorem MNX.C2_idempotent_append_amended_witness :
    (MNX.createEvent MNX.s1First.1 MNX.s1Envelope (some "k1") none
      "2f0e8400-e29b-41d4-a716-446655440bbb" "2025-01-01T00:00:01.000000Z"
      "e20e8400-e29b-41d4-a716-446655440e02" =
      (MNX.s1First.1, .apiError 409 "idempotency_conflict"
        ("Duplicate idempotency key: " ++ MNX.pyStrip "k1")
        "2f0e8400-e29b-41d4-a716-446655440bbb")) ∧
    MNX.tupleUnique (MNX.createEvent MNX.Store.empty MNX.s1Envelope
      (some "k1") none "1f0e8400-e29b-41d4-a716-446655440aaa"
      MNX.s1ReceivedAt "e10e8400-e29b-41d4-a716-446655440e01").1.log =
      true := by
  constructor
  · exact MNX.C2_idempotent_append_amended.1 MNX.s1First.1 MNX.s1Envelope
      "k1" "2f0e8400-e29b-41d4-a716-446655440bbb"
      "2025-01-01T00:00:01.000000Z" "e20e8400-e29b-41d4-a716-446655440e02"
      ⟨"e10e8400-e29b-41d4-a716-446655440e01", MNX.s1Envelope.world_id,
        MNX.s1Envelope.branch, MNX.s1Envelope.kind,
        MNX.Json.ser ", " ": "
          (MNX.enrichedStored MNX.s1Envelope MNX.s1ReceivedAt),
        1, MNX.s1ReceivedAt, some "k1"⟩
      rfl (by decide) (by decide) (by decide) rfl
  · exact MNX.C2_idempotent_append_amended.2 MNX.Store.empty MNX.s1Envelope
      (some "k1") none "1f0e8400-e29b-41d4-a716-446655440aaa"
      MNX.s1ReceivedAt "e10e8400-e29b-41d4-a716-446655440e01" (by decide)

/-- Claim C6, counterexample: starting from the projector's own state at
EMO version 5 / content `B`, applying `emo.updated` with the smaller
version 3 / content `A` leaves the row at version 3 with content `A` —
the claimed only-if-greater guard does not exist, and the final state does
not reflect the largest observed `emo_version`. -/
theorem MNX.C6_version_overwrite_counterexample :
    MNX.c6VersionOf MNX.c6Setup = some 5 ∧
    MNX.c6ContentOf MNX.c6Setup = some (some "B") ∧
    MNX.c6VersionOf MNX.c6After = some 3 ∧
    MNX.c6ContentOf MNX.c6After = some (some "A") ∧
    ¬ (MNX.c6VersionOf MNX.c6After = some 5) := by
  refine ⟨by decide, by decide, by decide, by decide, by decide⟩

namespace MNX

/-- `_handle_emo_links` rewrites only `emo_links`; the current rows come
through untouched. -/
theorem handleEmoLinks_emoCurrent {st : RelState} {w b : String}
    {p : Json} {now : String} {st2 : RelState}
    (h : handleEmoLinks st w b p now = .ok st2) :
    st2.emoCurrent = st.emoCurrent := by
  unfold handleEmoLinks at h
  simp only [Bind.bind, Except.bind] at h
  cases he : jReqStr p "emo_id" with
  | error m => rw [he] at h; simp at h
  | ok emoId =>
      rw [he] at h
      cases hs : readEmoLinkSpec p with
      | error m => rw [hs] at h; simp at h
      | ok spec =>
          rw [hs] at h
          simp only [] at h
          have h2 := Except.ok.inj h
          rw [← h2]

end MNX

/-- Claim C6, amended: `_handle_emo_updated` updates content, tags,
mime type and `emo_version` for the matching identity unconditionally —
`emo_version := payload.emo_version` with no greater-than guard — so the
final row reflects the last applied update event, whatever its version. -/
theorem MNX.C6_emo_update_amended :
    ∀ (st : MNX.RelState) (worldId branch : String) (payload : MNX.Json)
      (now : String) (st2 : MNX.RelState) (emoId : String) (v : Int)
      (c : Option String) (tg : List String) (mt : String)
      (r : MNX.EmoCurrentRow),
      MNX.jReqStr payload "emo_id" = .ok emoId →
      MNX.jReqInt payload "emo_version" = .ok v →
      MNX.jGetStrOpt payload "content" = .ok c →
      MNX.jGetStrListD payload "tags" = .ok tg →
      MNX.jGetStrD payload "mime_type" "text/markdown" = .ok mt →
      MNX.handleEmoUpdated st worldId branch payload now = .ok st2 →
      r ∈ st.emoCurrent →
      (r.emo_id == emoId && r.world_id == worldId &&
        r.branch == branch) = true →
      { r with
        emo_version := v, content := c, tags := tg,
        mime_type := mt, updated_at := now } ∈ st2.emoCurrent := by
  intro st worldId branch payload now st2 emoId v c tg mt r
    h1 h2 h3 h4 h5 hok hr hcond
  unfold MNX.handleEmoUpdated at hok
  simp only [Bind.bind, Except.bind, h1, h2, h3, h4, h5] at hok
  have hemo := MNX.handleEmoLinks_emoCurrent hok
  have hcur : st2.emoCurrent = st.emoCurrent.map (fun row =>
      if row.emo_id == emoId && row.world_id == worldId &&
        row.branch == branch
      then { row with
          emo_version := v, content := c, tags := tg, mime_type := mt,
          updated_at := now }
      else row) := by
    rw [hemo]
    split
    · rfl
    · rfl
  rw [hcur]
  refine List.mem_map.mpr ⟨r, hr, ?_⟩
  simp only [hcond, if_true]

/-- Witness for the amended claim C6: the concrete stale update drags the
version-5 row to the payload's version 3. -/
theorem MNX.C6_emo_update_amended_witness :
    { MNX.c6wRow with
        emo_version := 3, content := some "A", tags := [],
        mime_type := "text/markdown",
        updated_at := "2025-01-01T00:00:01" } ∈ MNX.c6wResult.emoCurrent :=
  MNX.C6_emo_update_amended MNX.c6wState MNX.wId "main" MNX.c6wPayload
    "2025-01-01T00:00:01" MNX.c6wResult
    "123e4567-e89b-12d3-a456-426614174000" 3 (some "A") []
    "text/markdown" MNX.c6wRow rfl rfl rfl rfl rfl rfl (by decide)
    (by decide)

namespace MNX

/-- Whatever state and surrounding envelope the translator is given, the
EMO envelope it builds carries `emo_id = str(UUIDv5(ns, "memory:"+m))` and
`content = payload.get("content", payload.get("body", ""))` in its
payload. -/
theorem buildUpsert_fields {st : TransState} {envelope payload : Json}
    {m : String} {st2 : TransState} {out : Json}
    (h1 : jReqStr payload "id" = .ok m)
    (hok : buildUpsertEnvelope st envelope payload = .ok (st2, out)) :
    (out.getKey "payload").bind (·.getKey "emo_id") =
      some (.str (uuidStr (deriveEmoId m))) ∧
    (out.getKey "payload").bind (·.getKey "content") =
      some (pyContentChoice payload) := by
  unfold buildUpsertEnvelope at hok
  simp only [Bind.bind, Except.bind, h1] at hok
  cases hc1 : payload.getKey "content" with
  | some v =>
      simp only [hc1] at hok
      simp only [pyContentChoice, hc1]
      repeat' split at hok
      all_goals
        first
        | exact Except.noConfusion hok
        | (have hpair := Except.ok.inj hok
           rw [Prod.mk.injEq] at hpair
           rw [← hpair.2]
           constructor <;> rfl)
  | none =>
      cases hc2 : payload.getKey "body" with
      | some v =>
          simp only [hc1, hc2] at hok
          simp only [pyContentChoice, hc1, hc2]
          repeat' split at hok
          all_goals
            first
            | exact Except.noConfusion hok
            | (have hpair := Except.ok.inj hok
               rw [Prod.mk.injEq] at hpair
               rw [← hpair.2]
               constructor <;> rfl)
      | none =>
          simp only [hc1, hc2] at hok
          simp only [pyContentChoice, hc1, hc2]
          repeat' split at hok
          all_goals
            first
            | exact Except.noConfusion hok
            | (have hpair := Except.ok.inj hok
               rw [Prod.mk.injEq] at hpair
               rw [← hpair.2]
               constructor <;> rfl)

end MNX

/-- Claim C7: for any translator state, any envelope and any payload whose
legacy memory id is `m`, the translated EMO envelope's `emo_id` equals the
UUIDv5 of the fixed DNS namespace over `memory:` + `m` — a pure function
of `m`, so equal memory ids map to equal EMO ids across events, states and
restarts. -/
theorem MNX.C7_emo_id_derivation :
    ∀ (st : MNX.TransState) (envelope payload : MNX.Json) (m : String)
      (st2 : MNX.TransState) (out : MNX.Json),
      MNX.jReqStr payload "id" = .ok m →
      MNX.buildUpsertEnvelope st envelope payload = .ok (st2, out) →
      (out.getKey "payload").bind (·.getKey "emo_id") =
        some (.str (MNX.uuidStr (MNX.deriveEmoId m))) ∧
      MNX.deriveEmoId m =
        MNX.uuid5 MNX.namespaceDNSBytes ("memory:" ++ m) := by
  intro st envelope payload m st2 out h1 hok
  exact ⟨(MNX.buildUpsert_fields h1 hok).1, rfl⟩

/-- Witness for claim C7 at the concrete memory id `mem1`, whose derived
EMO id is `840d60c2-0e54-5d2a-a9a4-e4d4066aabba`. -/
theorem MNX.C7_emo_id_derivation_witness :
    ((MNX.s3BuiltOut.getKey "payload").bind (·.getKey "emo_id") =
      some (.str (MNX.uuidStr (MNX.deriveEmoId "mem1"))) ∧
     MNX.deriveEmoId "mem1" =
       MNX.uuid5 MNX.namespaceDNSBytes ("memory:" ++ "mem1")) ∧
    MNX.uuidStr (MNX.deriveEmoId "mem1") =
      "840d60c2-0e54-5d2a-a9a4-e4d4066aabba" :=
  ⟨MNX.C7_emo_id_derivation ⟨[], [], []⟩ MNX.s3Envelope MNX.s3Payload
    "mem1" MNX.s3BuiltState MNX.s3BuiltOut rfl rfl, by decide⟩

/-- Claim C8, counterexample: for a memory with title `X` and body `Y`
(and no `content` field), the translated EMO event's content is `Y` — the
title is never concatenated, against the claimed `X\n\nY`. -/
theorem MNX.C8_content_counterexample :
    MNX.builtContent MNX.s3Built = some "Y" ∧
    ¬ (MNX.builtContent MNX.s3Built = some "X\n\nY") := by
  constructor <;> decide

/-- Claim C8, amended: the translated event's content equals the payload's
`content` value when that key is present, else the payload's `body` value
when present, else the empty string — `content := payload.get("content",
payload.get("body", ""))`; the title is not used. -/
theorem MNX.C8_content_mapping_amended :
    ∀ (st : MNX.TransState) (envelope payload : MNX.Json) (m : String)
      (st2 : MNX.TransState) (out : MNX.Json),
      MNX.jReqStr payload "id" = .ok m →
      MNX.buildUpsertEnvelope st envelope payload = .ok (st2, out) →
      (out.getKey "payload").bind (·.getKey "content") =
        some (MNX.pyContentChoice payload) := by
  intro st envelope payload m st2 out h1 hok
  exact (MNX.buildUpsert_fields h1 hok).2

/-- Witness for the amended claim C8 at the concrete title-`X` body-`Y`
memory event. -/
theorem MNX.C8_content_mapping_amended_witness :
    (MNX.s3BuiltOut.getKey "payload").bind (·.getKey "content") =
      some (MNX.pyContentChoice MNX.s3Payload) :=
  MNX.C8_content_mapping_amended ⟨[], [], []⟩ MNX.s3Envelope
    MNX.s3Payload "mem1" MNX.s3BuiltState MNX.s3BuiltOut rfl rfl

/-- Claim C10: when the translation or emission of a `memory.*` event
raises, the translator's `apply` swallows the exception and returns
normally, so the shared reception endpoint still acknowledges with
`processed` and advances the watermark to the delivered sequence, while
the translator's state — including its emitted event log — is unchanged:
no `emo.*` event was written and the failure is not surfaced for retry. -/
theorem MNX.C10_translator_swallows_failures :
    ∀ (sys : MNX.TransSys) (seq : Nat) (envelope : MNX.Json)
      (fid k w b : String) (p : MNX.Json) (e : String),
      MNX.jReqStr envelope "kind" = .ok k →
      envelope.getKey "payload" = some p →
      MNX.jReqStr envelope "world_id" = .ok w →
      MNX.jReqStr envelope "branch" = .ok b →
      MNX.strStartsWith k "memory." = true →
      MNX.translateInner sys.trans k envelope
        ((envelope.getKey "payload").getD .null) fid true = .error e →
      MNX.translatorReceiveEvent sys seq envelope none fid true =
        ({ trans := sys.trans,
           watermarks := MNX.setWatermark sys.watermarks
             "translator_memory_to_emo" w b seq },
         .processed seq) := by
  intro sys seq envelope fid k w b p e hkind hpay hw hb hstart htrans
  rw [hpay] at htrans
  simp only [Option.getD_some] at htrans
  have happly : MNX.transApply sys.trans envelope fid true =
      .ok sys.trans := by
    unfold MNX.transApply
    simp [Bind.bind, Except.bind, hkind, hpay, hw, hb, hstart, htrans]
  unfold MNX.translatorReceiveEvent
  simp [hw, happly, hb]

/-- Witness for claim C10: a concrete `memory.item.upserted` whose
emission fails is still acknowledged with the watermark advanced and no
event emitted. -/
theorem MNX.C10_translator_swallows_failures_witness :
    MNX.translatorReceiveEvent ⟨⟨[], [], []⟩, []⟩ 7 MNX.s3Envelope none
      "e30e8400-e29b-41d4-a716-446655440e03" true =
      ({ trans := ⟨[], [], []⟩,
         watermarks := MNX.setWatermark [] "translator_memory_to_emo"
           MNX.wId "main" 7 },
       .processed 7) :=
  MNX.C10_translator_swallows_failures ⟨⟨[], [], []⟩, []⟩ 7 MNX.s3Envelope
    "e30e8400-e29b-41d4-a716-446655440e03" "memory.item.upserted" MNX.wId
    "main" MNX.s3Payload "Failed to emit EMO event" rfl rfl rfl rfl
    (by decide) rfl
